import Mathlib

/-!
Verification development for the Socket-FTP-Python repository.

The server side of the repository is shallowly embedded here:
`thread_functions.py` (class `ClientHandler`: command dispatch, upload and
download transfer loops, list and visibility-change handlers),
`user_management.py` (class `DatabaseManager`: the users and files tables),
and `server_auth.py` (function `handle_make_file_public_admin`).

The filesystem is modelled as an association list from absolute normalized
paths to byte lists, the database as in-memory lists of records, and the
network as a list of chunks (each chunk a byte list) in the order `recv`
would deliver them.  Machine-level details (TLS, threading, tqdm progress
bars, logging) are not modelled; every branch of the translated control
flow is.  Python exceptions that a handler catches are modelled as the
explicit error-response branches the `except` clauses produce.
-/

namespace FTP

/-! ## Configuration constants

Values taken from `server.py` / `client.py` defaults: separator
`<SEPARATOR>`, buffer size 4096, directories `uploads`, `public_files`,
`shared_uploads`. -/

def SEP : String := "<SEPARATOR>"
def bufferSize : Nat := 4096
def uploadDir : String := "uploads"
def publicFilesDir : String := "public_files"
def sharedUploadsDir : String := "shared_uploads"

/-! ## Command keywords (config `COMMANDS`, values from `server.py`/`client.py`) -/

def REGISTER_CMD : String := "REGISTER"
def LOGIN_CMD : String := "LOGIN"
def LOGOUT_CMD : String := "LOGOUT"
def QUIT_CMD : String := "QUIT"
def UPLOAD_PRIVATE_CMD : String := "UPLOAD_PRIVATE"
def UPLOAD_PUBLIC_CMD : String := "UPLOAD_PUBLIC"
def UPLOAD_FOR_SHARING_CMD : String := "UPLOAD_FOR_SHARE"
def DOWNLOAD_PRIVATE_CMD : String := "DOWNLOAD_PRIVATE"
def DOWNLOAD_SERVER_PUBLIC_CMD : String := "DOWNLOAD_SERVER_PUBLIC"
def DOWNLOAD_SHARED_CMD : String := "DOWNLOAD_SHARED"
def LIST_PRIVATE_CMD : String := "LIST_PRIVATE"
def LIST_PUBLIC_CMD : String := "LIST_PUBLIC"
def LIST_SHARED_CMD : String := "LIST_SHARED"
def MAKE_PUBLIC_ADMIN_CMD : String := "MAKE_PUBLIC_ADMIN"
def MAKE_PUBLIC_USER_CMD : String := "MAKE_PUBLIC_USER"
def MAKE_SHARED_USER_CMD : String := "MAKE_SHARED_USER"
def ADMIN_DELETE_FILE_CMD : String := "ADMIN_DELETE_FILE"

/-! ## Response keywords (config `RESPONSES` and `ServerAuthHandler` constants) -/

def ERROR_RESPONSE : String := "ERROR"
def REGISTER_SUCCESS : String := "REGISTER_SUCCESS"
def REGISTER_FAILED : String := "REGISTER_FAILED"
def LOGIN_SUCCESS : String := "LOGIN_SUCCESS"
def LOGIN_FAILED : String := "LOGIN_FAILED"
def LOGOUT_SUCCESS : String := "LOGOUT_SUCCESS"
def AUTH_REQUIRED : String := "AUTH_REQUIRED"
def PERMISSION_DENIED : String := "PERMISSION_DENIED"
def INVALID_SESSION : String := "INVALID_SESSION"
def READY_FOR_DATA : String := "READY_FOR_DATA"
def UPLOAD_SUCCESS : String := "UPLOAD_SUCCESS"
def FILE_NOT_FOUND : String := "FILE_NOT_FOUND"
def USER_NOT_FOUND : String := "USER_NOT_FOUND"
def DOWNLOAD_READY : String := "DOWNLOAD_READY"
def DOWNLOAD_COMPLETE : String := "DOWNLOAD_COMPLETE"
def LIST_SUCCESS : String := "LIST_SUCCESS"
def NO_FILES_PUBLIC : String := "NO_FILES_PUBLIC"
def PRIVATE_LIST : String := "PRIVATE_LIST"
def NO_FILES_PRIVATE : String := "NO_FILES_PRIVATE"
def SHARED_LIST : String := "SHARED_LIST"
def NO_FILES_SHARED : String := "NO_FILES_SHARED"
def ADMIN_PUBLIC_SUCCESS : String := "ADMIN_PUBLIC_SUCCESS"
def ADMIN_PUBLIC_FAILED : String := "ADMIN_PUBLIC_FAILED"
def USER_PUBLIC_SUCCESS : String := "USER_PUBLIC_SUCCESS"
def USER_SHARED_SUCCESS : String := "USER_SHARED_SUCCESS"
def ADMIN_DELETE_SUCCESS : String := "ADMIN_DELETE_SUCCESS"
def ADMIN_DELETE_FAILED : String := "ADMIN_DELETE_FAILED"
def LIST_FAILED : String := "LIST_FAILED"

/-- Response the dispatcher's outermost `except Exception` clause in
`handle_client_connection` sends when an unexpected exception escapes a
branch (thread_functions.py line 223). -/
def INTERNAL_ERROR_RESPONSE : String :=
  ERROR_RESPONSE ++ SEP ++ "An internal server error occurred."

attribute [simp] SEP REGISTER_CMD LOGIN_CMD LOGOUT_CMD QUIT_CMD
  UPLOAD_PRIVATE_CMD UPLOAD_PUBLIC_CMD UPLOAD_FOR_SHARING_CMD
  DOWNLOAD_PRIVATE_CMD DOWNLOAD_SERVER_PUBLIC_CMD DOWNLOAD_SHARED_CMD
  LIST_PRIVATE_CMD LIST_PUBLIC_CMD LIST_SHARED_CMD MAKE_PUBLIC_ADMIN_CMD
  MAKE_PUBLIC_USER_CMD MAKE_SHARED_USER_CMD ADMIN_DELETE_FILE_CMD
  ERROR_RESPONSE REGISTER_SUCCESS REGISTER_FAILED LOGIN_SUCCESS LOGIN_FAILED
  LOGOUT_SUCCESS AUTH_REQUIRED PERMISSION_DENIED INVALID_SESSION
  READY_FOR_DATA UPLOAD_SUCCESS FILE_NOT_FOUND USER_NOT_FOUND DOWNLOAD_READY
  DOWNLOAD_COMPLETE LIST_SUCCESS NO_FILES_PUBLIC PRIVATE_LIST
  NO_FILES_PRIVATE SHARED_LIST NO_FILES_SHARED ADMIN_PUBLIC_SUCCESS
  ADMIN_PUBLIC_FAILED USER_PUBLIC_SUCCESS USER_SHARED_SUCCESS
  ADMIN_DELETE_SUCCESS ADMIN_DELETE_FAILED LIST_FAILED
  INTERNAL_ERROR_RESPONSE

/-! ## Path model

`os.path` on POSIX: `basename` is everything after the last slash,
`join a b` appends with a slash (or takes `b` alone when absolute), and
`abspath` resolves against the process working directory (modelled as the
absolute directory `/srv`) and normalizes `.`, `..` and empty components. -/

def cwdParts : List String := ["srv"]

/-- `str.startswith`, computed on the character lists. -/
def strStartsWith (s p : String) : Bool :=
  p.data.isPrefixOf s.data

/-- `str.endswith`, computed on the character lists. -/
def strEndsWith (s p : String) : Bool :=
  p.data.isSuffixOf s.data

/-- Helper for `str.split(sep)` with a one-character separator. -/
def splitCharAux (sep : Char) : List Char → List Char → List (List Char)
  | [], acc => [acc.reverse]
  | c :: rest, acc =>
    if c = sep then acc.reverse :: splitCharAux sep rest []
    else splitCharAux sep rest (c :: acc)

/-- `str.split("/")`. -/
def splitSlash (s : String) : List String :=
  (splitCharAux '/' s.data []).map String.mk

/-- Helper for `str.split(sep)` with a multi-character separator; the
fuel is a structural bound instantiated with the string length (each
step consumes at least one character). -/
def splitOnStrF (sep : List Char) : Nat → List Char → List Char → List (List Char)
  | _, [], acc => [acc.reverse]
  | 0, l, acc => [acc.reverse ++ l]
  | fuel + 1, c :: rest, acc =>
    if sep.isPrefixOf (c :: rest) then
      acc.reverse :: splitOnStrF sep fuel ((c :: rest).drop sep.length) []
    else
      splitOnStrF sep fuel rest (c :: acc)

/-- `str.split(sep)` for a nonempty separator string, scanning left to
right without overlap. -/
def splitOnStr (s sep : String) : List String :=
  if sep.data = [] then [s]
  else (splitOnStrF sep.data s.data.length s.data []).map String.mk

/-- `os.path.basename`: the final component after the last `/`. -/
def basename (p : String) : String :=
  (splitSlash p).getLastD ""

/-- `os.path.join` for two components (POSIX semantics). -/
def pathJoin (a b : String) : String :=
  if strStartsWith b "/" then b
  else if a = "" ∨ strEndsWith a "/" then a ++ b
  else a ++ "/" ++ b

/-- Normalize path components: drop empty and `.` components, let `..`
pop the previous component (staying at the root when there is none). -/
def normAux : List String → List String → List String
  | acc, [] => acc.reverse
  | acc, c :: rest =>
    if c = "" ∨ c = "." then normAux acc rest
    else if c = ".." then normAux (acc.drop 1) rest
    else normAux (c :: acc) rest

/-- `os.path.abspath`: resolve against the working directory and
normalize. Always returns a string beginning with `/`. -/
def abspath (p : String) : String :=
  let comps := if strStartsWith p "/" then splitSlash p else cwdParts ++ splitSlash p
  "/" ++ String.intercalate "/" (normAux [] comps)

/-! ## Python `int()` parsing

`int(s)` strips ASCII whitespace, accepts an optional sign, then digits
optionally grouped by single underscores between digits; anything else
raises `ValueError` (modelled as `none`). -/

def isPyWs (c : Char) : Bool :=
  c = ' ' ∨ c = '\t' ∨ c = '\n' ∨ c = '\r' ∨ c = '\x0b' ∨ c = '\x0c'

def digitsVal (l : List Char) : Nat :=
  l.foldl (fun a c => a * 10 + (c.toNat - 48)) 0

def pyInt (s : String) : Option Int :=
  let t := ((s.toList.dropWhile isPyWs).reverse.dropWhile isPyWs).reverse
  match t with
  | [] => none
  | c :: rest =>
    let sign : Int := if c = '-' then -1 else 1
    let digits := if c = '-' ∨ c = '+' then rest else c :: rest
    let groups := digits.splitOn '_'
    if groups.all (fun g => decide (g ≠ []) && g.all Char.isDigit) then
      some (sign * (digitsVal (digits.filter (· ≠ '_')) : Int))
    else
      none

/-! ## Data model

Mirrors the `users` and `files` tables of `user_management.py` and the
in-memory session store of the spec (section 4.1), plus the on-disk file
tree as a path-keyed association list. -/

/-- Stored credential: either a raw plaintext password or the output of
the salted adaptive hash. `register` only ever produces the latter.
The digest is a concrete salted function of the password bytes standing
in for the bcrypt output (the relevant property is that the stored value
is the salted-hash image, not the plaintext). -/
inductive Cred where
  | plain (pw : String)
  | hashed (salt : Nat) (digest : List Nat)
deriving Repr, DecidableEq

/-- Stand-in for `bcrypt.hashpw` with a given salt. -/
def bcryptDigest (salt : Nat) (pw : String) : List Nat :=
  pw.toList.map (fun c => c.toNat * 31 + salt)

/-- Stand-in for `bcrypt.checkpw`. -/
def credCheck (c : Cred) (pw : String) : Bool :=
  match c with
  | .plain q => q = pw
  | .hashed salt digest => digest = bcryptDigest salt pw

structure UserRecord where
  id : Nat
  username : String
  cred : Cred
  role : String
  session_id : Option String
deriving Repr, DecidableEq

structure FileRecord where
  file_id : Nat
  owner_id : Nat
  file_name : String
  file_size : Int
  is_public : Bool
  recipient_id : Option Nat
deriving Repr, DecidableEq

/-- Session-store entry (spec section 4.1: session id maps to
username, role and user id). -/
structure SessionData where
  username : String
  role : String
  userId : Nat
deriving Repr, DecidableEq

/-- Whole-server state: database tables, session store, filesystem, and
the counters that model auto-increment ids and fresh salt/token draws. -/
structure Sys where
  users : List UserRecord
  files : List FileRecord
  sessions : List (String × SessionData)
  fs : List (String × List Nat)
  nextUserId : Nat
  nextFileId : Nat
  entropy : Nat
deriving Repr, DecidableEq

/-- Per-connection handler state (`ClientHandler.__init__`:
`session_id`, `username`, `user_role`, `user_id`, all `None` until
login). -/
structure Conn where
  sessionId : Option String
  username : Option String
  userRole : Option String
  userId : Option Nat
deriving Repr, DecidableEq

/-- Filesystem lookup by absolute path (`os.path.isfile` /
`open(..,"rb")`). -/
def fsLookup (fs : List (String × List Nat)) (p : String) : Option (List Nat) :=
  (fs.find? (fun e => e.1 = p)).map (·.2)

/-- Filesystem write, overwriting any previous entry (`open(..,"wb")`). -/
def fsStore (fs : List (String × List Nat)) (p : String) (v : List Nat) :
    List (String × List Nat) :=
  (p, v) :: fs.filter (fun e => e.1 ≠ p)

/-- Filesystem deletion (`os.remove`). -/
def fsErase (fs : List (String × List Nat)) (p : String) :
    List (String × List Nat) :=
  fs.filter (fun e => e.1 ≠ p)

/-! ## Database operations (`user_management.py`, class `DatabaseManager`) -/

/-- `get_user_by_username`. -/
def get_user_by_username (sys : Sys) (u : String) : Option UserRecord :=
  sys.users.find? (fun r => r.username == u)

/-- `get_user_by_id`. -/
def get_user_by_id (sys : Sys) (uid : Nat) : Option UserRecord :=
  sys.users.find? (fun r => r.id == uid)

/-- `get_user_id_by_username`. -/
def get_user_id_by_username (sys : Sys) (u : String) : Option Nat :=
  (get_user_by_username sys u).map (·.id)

/-- `add_file_record`: inserts a row; the insert fails (the `except`
branch returns `False`) when `owner_id` is `None`, since the column is
declared `NOT NULL`. -/
def add_file_record (sys : Sys) (owner : Option Nat) (name : String)
    (size : Int) (pub : Bool) (recip : Option Nat) : Bool × Sys :=
  match owner with
  | none => (false, sys)
  | some oid =>
    (true, { sys with
      files := sys.files ++
        [⟨sys.nextFileId, oid, name, size, pub, recip⟩],
      nextFileId := sys.nextFileId + 1 })

/-- `get_files(owner_id=..., is_public=...)`: each filter is applied
only when the corresponding argument is not `None`. -/
def get_files (sys : Sys) (owner : Option Nat) (pub : Option Bool) :
    List FileRecord :=
  sys.files.filter (fun r =>
    (match owner with | none => true | some o => r.owner_id == o) &&
    (match pub with | none => true | some b => r.is_public == b))

/-- `get_public_file_record`: `file_name = %s AND is_public = TRUE AND
recipient_id IS NULL`. -/
def get_public_file_record (sys : Sys) (name : String) : Option FileRecord :=
  sys.files.find? (fun r =>
    r.file_name == name && r.is_public && r.recipient_id == none)

/-- `get_private_file_record`: `file_name = %s AND owner_id = %s AND
is_public = FALSE AND recipient_id IS NULL`; an SQL comparison with
`NULL` matches no row, so a `None` owner yields no record. -/
def get_private_file_record (sys : Sys) (name : String) (owner : Option Nat) :
    Option FileRecord :=
  match owner with
  | none => none
  | some o =>
    sys.files.find? (fun r =>
      r.file_name == name && r.owner_id == o && !r.is_public &&
      r.recipient_id == none)

/-- `get_file_record_in_shared_folder`: `file_name = %s AND
recipient_id = %s AND is_public = FALSE`. -/
def get_file_record_in_shared_folder (sys : Sys) (name : String)
    (recip : Option Nat) : Option FileRecord :=
  match recip with
  | none => none
  | some rid =>
    sys.files.find? (fun r =>
      r.file_name == name && r.recipient_id == some rid && !r.is_public)

/-- `get_public_files`. -/
def get_public_files (sys : Sys) : List FileRecord :=
  sys.files.filter (·.is_public)

/-- MySQL string-to-number coercion, used because
`admin_delete_public_file` passes the raw command field into the
`file_id = %s` comparison: optional leading spaces and sign, then the
longest numeric prefix, defaulting to 0. -/
def mysqlNum (s : String) : Int :=
  let t := s.toList.dropWhile (· = ' ')
  let sign : Int := if t.head? = some '-' then -1 else 1
  let rest := if t.head? = some '-' ∨ t.head? = some '+' then t.drop 1 else t
  sign * (digitsVal (rest.takeWhile Char.isDigit) : Int)

/-- `get_file_record_by_id`. -/
def get_file_record_by_id (sys : Sys) (idv : Int) : Option FileRecord :=
  sys.files.find? (fun r => (r.file_id : Int) == idv)

/-- `update_file_visibility`: sets `is_public` on every row with the
given id; returns whether `cursor.rowcount > 0` (a row matched and
changed). -/
def update_file_visibility (sys : Sys) (idv : Nat) (b : Bool) : Bool × Sys :=
  (sys.files.any (fun r => r.file_id == idv && r.is_public != b),
   { sys with files := sys.files.map (fun r =>
       if r.file_id == idv then { r with is_public := b } else r) })

/-- `delete_file`: looks the record up by (coerced) id, then deletes it
subject to the admin/owner policy of the source; returns
`(file_name, owner_id, is_public)` when `rowcount == 1`, and the `None`
triple otherwise. -/
def delete_file (sys : Sys) (fileIdStr : String) (userId : Nat)
    (role : String) : Option (String × Nat × Bool) × Sys :=
  match get_file_record_by_id sys (mysqlNum fileIdStr) with
  | none => (none, sys)
  | some rec =>
    if role == "admin" then
      if !rec.is_public then (none, sys)
      else
        let matched := sys.files.filter (fun r => r.file_id == rec.file_id)
        let sys2 := { sys with
          files := sys.files.filter (fun r => !(r.file_id == rec.file_id)) }
        if matched.length == 1 then
          (some (rec.file_name, rec.owner_id, rec.is_public), sys2)
        else (none, sys2)
    else
      let matched := sys.files.filter (fun r =>
        r.file_id == rec.file_id && r.owner_id == userId)
      let sys2 := { sys with
        files := sys.files.filter (fun r =>
          !(r.file_id == rec.file_id && r.owner_id == userId)) }
      if matched.length == 1 then
        (some (rec.file_name, rec.owner_id, rec.is_public), sys2)
      else (none, sys2)

/-! ## Session store and auth handler

`thread_functions.py` calls `ServerAuthHandler.is_valid_session`,
`get_session_data`, `register_user`, `login_user` and `logout_user`,
none of which appear in the repository sources; they are modelled from
the spec (sections 4.1 and 4.2). -/

/-- Modelled from the spec: `validate(sessionId)` (section 4.1) — a
lock-guarded lookup in the in-memory session map; absent means invalid.
The missing source method is `ServerAuthHandler.is_valid_session`. -/
def is_valid_session (sys : Sys) (sid : String) : Bool :=
  sys.sessions.any (fun e => e.1 == sid)

/-- Modelled from the spec: session lookup returning the stored
`{username, role, user id}` (section 4.1); the missing source method is
`ServerAuthHandler.get_session_data`.  Looking up `None` finds
nothing. -/
def get_session_data (sys : Sys) (sid : Option String) : Option SessionData :=
  match sid with
  | none => none
  | some s => (sys.sessions.find? (fun e => e.1 == s)).map (·.2)

/-- Modelled from the spec: `register(username, password)` (section
4.2) — fails on empty username or password or an existing username;
otherwise stores the salted-hashed password (the hashing and the
duplicate check mirror `DatabaseManager.register_user` in src).  The
missing source method is `ServerAuthHandler.register_user`; the fresh
salt is drawn from the entropy counter. -/
def auth_register_user (sys : Sys) (u p : String) : Sys × String :=
  if u = "" ∨ p = "" then
    (sys, REGISTER_FAILED ++ SEP ++ "Username and password are required.")
  else
    match get_user_by_username sys u with
    | some _ =>
      (sys, REGISTER_FAILED ++ SEP ++ "Username already exists or other DB error.")
    | none =>
      let salt := sys.entropy
      ({ sys with
          users := sys.users ++
            [⟨sys.nextUserId, u, .hashed salt (bcryptDigest salt p), "user", none⟩],
          nextUserId := sys.nextUserId + 1,
          entropy := sys.entropy + 1 },
       REGISTER_SUCCESS)

/-- Modelled from the spec: `login(username, password)` (section 4.2)
returning `sessionId, username, role` after the success keyword (the
four fields `handle_client_connection` line 82 unpacks) — verifies the
password against the stored hash, creates a session that overwrites the
user's previous one (section 4.1 `create`).  The missing source method
is `ServerAuthHandler.login_user`; the fresh token is drawn from the
entropy counter. -/
def auth_login_user (sys : Sys) (u p : String) : Sys × String :=
  match get_user_by_username sys u with
  | none => (sys, LOGIN_FAILED ++ SEP ++ "Invalid username or password.")
  | some usr =>
    if credCheck usr.cred p then
      let sid := "session-" ++ toString sys.entropy
      ({ sys with
          sessions := (sid, ⟨u, usr.role, usr.id⟩) ::
            sys.sessions.filter (fun e => !(some e.1 == usr.session_id)),
          users := sys.users.map (fun w =>
            if w.id == usr.id then { w with session_id := some sid } else w),
          entropy := sys.entropy + 1 },
       LOGIN_SUCCESS ++ SEP ++ sid ++ SEP ++ u ++ SEP ++ usr.role)
    else
      (sys, LOGIN_FAILED ++ SEP ++ "Invalid username or password.")

/-- Modelled from the spec: `logout(sessionId)` via `destroy` (sections
4.1 and 4.2) — removes the session-store entry and clears the persisted
token on the user record; destroying an absent (or `None`) session
reports failure but causes no error state.  The missing source method
is `ServerAuthHandler.logout_user`; the failure text follows
`handle_logout` in `server_auth.py`. -/
def auth_logout_user (sys : Sys) (sid : Option String) : Sys × String :=
  match sid with
  | none => (sys, ERROR_RESPONSE ++ SEP ++ "Failed to clear session.")
  | some s =>
    if is_valid_session sys s then
      ({ sys with
          sessions := sys.sessions.filter (fun e => !(e.1 == s)),
          users := sys.users.map (fun w =>
            if w.session_id == some s then { w with session_id := none } else w) },
       LOGOUT_SUCCESS)
    else
      (sys, ERROR_RESPONSE ++ SEP ++ "Failed to clear session.")

/-! ## Transfer engine (upload receive loop, download send loop) -/

/-- What the handler writes back to the socket: a delimited control
response (`send_response`) or raw payload bytes (`sendall` during a
download). -/
inductive Out where
  | resp (s : String)
  | bytes (b : List Nat)
deriving Repr, DecidableEq

/-- Filesystem and metadata-store touches a command performs, recorded
in the order the source performs them. -/
inductive Event where
  | dbRead (q : String)
  | dbWrite (q : String)
  | fsWrite (p : String)
  | fsRead (p : String)
  | fsRemove (p : String)
  | fsCopy (src dst : String)
  | fsMove (src dst : String)
deriving Repr, DecidableEq

/-- The upload receive loop (`handle_upload_file` lines 288-297):
`while bytes_received < file_size`, read
`min(buffer_size, file_size - bytes_received)` bytes, break on an empty
read (peer closed).  The network is a queue of delivered chunks; a
`recv` takes at most the bound from the front chunk.  Returns the bytes
received and the unconsumed remainder of the stream. -/
def recvLoopF (buffer : Nat) :
    Nat → List (List Nat) → Nat → List Nat × List (List Nat)
  | fuel, stream, remaining =>
    match remaining with
    | 0 => ([], stream)
    | n + 1 =>
      match fuel with
      | 0 => ([], stream)
      | fuel + 1 =>
        match stream with
        | [] => ([], [])
        | c :: rest =>
          let r := c.take (min buffer (n + 1))
          if r = [] then ([], c :: rest)
          else
            let rest2 :=
              if min buffer (n + 1) < c.length then
                c.drop (min buffer (n + 1)) :: rest
              else rest
            let out := recvLoopF buffer fuel rest2 (n + 1 - r.length)
            (r ++ out.1, out.2)

/-- Entry point of the receive loop.  The fuel argument of `recvLoopF`
is a structural recursion bound only; each iteration of the source loop
receives at least one byte, so `remaining` itself bounds the number of
iterations and the fuel is never exhausted. -/
def recvLoop (buffer : Nat) (stream : List (List Nat)) (remaining : Nat) :
    List Nat × List (List Nat) :=
  recvLoopF buffer remaining stream remaining

/-- The download send loop (`handle_download_file` lines 372-377):
read `buffer_size`-byte chunks until `f.read` returns empty, sending
each chunk. -/
def sendLoopF (buffer : Nat) : Nat → List Nat → List (List Nat)
  | fuel, data =>
    match data with
    | [] => []
    | x :: xs =>
      match fuel with
      | 0 => []
      | fuel + 1 =>
        if buffer = 0 then []
        else (x :: xs).take buffer :: sendLoopF buffer fuel ((x :: xs).drop buffer)

/-- Entry point of the send loop.  The fuel argument of `sendLoopF` is
a structural recursion bound only; with a positive buffer each
iteration of the source loop consumes at least one byte of the file,
so the file length bounds the number of iterations. -/
def sendLoop (buffer : Nat) (data : List Nat) : List (List Nat) :=
  sendLoopF buffer data.length data

/-! ## File-transfer handlers (`thread_functions.py`, class `ClientHandler`) -/

/-- Result of a handler that may change server state, answer, touch
files, and consume network chunks. -/
structure HandlerResult where
  sys : Sys
  outs : List Out
  events : List Event
  stream : List (List Nat)
deriving Repr, DecidableEq

/-- Shared tail of `handle_upload_file` (lines 267-306): build the
destination path, run the traversal check, insert the metadata record,
acknowledge `READY_FOR_DATA`, receive, and compare byte counts.  The
`ev0` argument carries events of the tier-selection phase. -/
def upload_core (sys : Sys) (stream : List (List Nat)) (base_dir safe : String)
    (file_size : Int) (owner : Option Nat) (pub : Bool) (recip : Option Nat)
    (ev0 : List Event) : HandlerResult :=
  let resolved := abspath (pathJoin base_dir safe)
  if !(strStartsWith resolved (abspath base_dir)) then
    ⟨sys, [.resp (ERROR_RESPONSE ++ SEP ++ "Invalid file path.")], ev0, stream⟩
  else
    match add_file_record sys owner safe file_size pub recip with
    | (false, sys2) =>
      ⟨sys2, [.resp (ERROR_RESPONSE ++ SEP ++ "Failed to upload file.")],
       ev0 ++ [.dbWrite "add_file_record"], stream⟩
    | (true, sys2) =>
      let rv := recvLoop bufferSize stream file_size.toNat
      let fsW := fsStore sys2.fs resolved rv.1
      if (rv.1.length : Int) = file_size then
        ⟨{ sys2 with fs := fsW },
         [.resp READY_FOR_DATA, .resp UPLOAD_SUCCESS],
         ev0 ++ [.dbWrite "add_file_record", .fsWrite resolved], rv.2⟩
      else
        ⟨{ sys2 with fs := fsErase fsW resolved },
         [.resp READY_FOR_DATA,
          .resp (ERROR_RESPONSE ++ SEP ++ "Incomplete file upload.")],
         ev0 ++ [.dbWrite "add_file_record", .fsWrite resolved,
                 .fsRemove resolved], rv.2⟩

/-- `handle_upload_file` (lines 236-315).  A `None` username in the
private tier makes `os.path.join` raise, caught by the handler's own
`except Exception` clause (line 311). -/
def handle_upload_file (sys : Sys) (conn : Conn) (stream : List (List Nat))
    (file_name file_size_str : String) (recipient_username : Option String)
    (priv pub : Bool) : HandlerResult :=
  match pyInt file_size_str with
  | none =>
    ⟨sys, [.resp (ERROR_RESPONSE ++ SEP ++ "Invalid command format.")], [], stream⟩
  | some file_size =>
    let safe := basename file_name
    if priv then
      match conn.username with
      | none =>
        ⟨sys, [.resp (ERROR_RESPONSE ++ SEP ++ "Error during file upload.")],
         [], stream⟩
      | some u =>
        upload_core sys stream (pathJoin uploadDir u) safe file_size
          conn.userId false none []
    else if pub then
      upload_core sys stream publicFilesDir safe file_size
        conn.userId true none []
    else
      match recipient_username with
      | none =>
        ⟨sys, [.resp (ERROR_RESPONSE ++ SEP ++
          "Recipient username is required for sharing.")], [], stream⟩
      | some ru =>
        match get_user_by_username sys ru with
        | none =>
          ⟨sys, [.resp (ERROR_RESPONSE ++ SEP ++ "User not found.")],
           [.dbRead "get_user_by_username"], stream⟩
        | some urec =>
          upload_core sys stream (pathJoin sharedUploadsDir ru) safe file_size
            conn.userId false (some urec.id)
            [.dbRead "get_user_by_username"]

/-- Shared tail of `handle_download_file` (lines 352-380): build the
path from the record's file name, run the traversal check, check the
file exists on disk, then send `DOWNLOAD_READY`, the chunked bytes, and
`DOWNLOAD_COMPLETE`. -/
def download_core (sys : Sys) (base_dir : String) (rec : FileRecord)
    (ev0 : List Event) : List Out × List Event :=
  let resolved := abspath (pathJoin base_dir (basename rec.file_name))
  if !(strStartsWith resolved (abspath base_dir)) then
    ([.resp (ERROR_RESPONSE ++ SEP ++ "Invalid file path.")], ev0)
  else
    match fsLookup sys.fs resolved with
    | none => ([.resp FILE_NOT_FOUND], ev0)
    | some data =>
      ([.resp (DOWNLOAD_READY ++ SEP ++ rec.file_name ++ SEP ++
          toString data.length)] ++
        (sendLoop bufferSize data).map .bytes ++
        [.resp DOWNLOAD_COMPLETE],
       ev0 ++ [.fsRead resolved])

/-- `handle_download_file` (lines 318-387).  Tier selection: private
(record by name and owner), public (record by name), otherwise shared
(record by name and recipient).  A `None` username after a successful
record lookup makes `os.path.join` raise, caught by the generic clause
(line 385). -/
def handle_download_file (sys : Sys) (conn : Conn) (ident : String)
    (fromPriv fromPub : Bool) : List Out × List Event :=
  let safe := basename ident
  if fromPriv then
    match get_private_file_record sys safe conn.userId with
    | none => ([.resp FILE_NOT_FOUND], [.dbRead "get_private_file_record"])
    | some rec =>
      match conn.username with
      | none =>
        ([.resp (ERROR_RESPONSE ++ SEP ++ "Error during file download.")],
         [.dbRead "get_private_file_record"])
      | some u =>
        download_core sys (pathJoin uploadDir u) rec
          [.dbRead "get_private_file_record"]
  else if fromPub then
    match get_public_file_record sys safe with
    | none => ([.resp FILE_NOT_FOUND], [.dbRead "get_public_file_record"])
    | some rec =>
      download_core sys publicFilesDir rec [.dbRead "get_public_file_record"]
  else
    match get_file_record_in_shared_folder sys safe conn.userId with
    | none =>
      ([.resp FILE_NOT_FOUND], [.dbRead "get_file_record_in_shared_folder"])
    | some rec =>
      match conn.username with
      | none =>
        ([.resp (ERROR_RESPONSE ++ SEP ++ "Error during file download.")],
         [.dbRead "get_file_record_in_shared_folder"])
      | some u =>
        download_core sys (pathJoin sharedUploadsDir u) rec
          [.dbRead "get_file_record_in_shared_folder"]

/-- `handle_list_public_files` (lines 389-405). -/
def handle_list_public_files (sys : Sys) : List Out × List Event :=
  let pubs := get_public_files sys
  if pubs.isEmpty then
    ([.resp NO_FILES_PUBLIC], [.dbRead "get_public_files"])
  else
    ([.resp (LIST_SUCCESS ++ SEP ++ String.intercalate SEP
        (pubs.map (fun f => toString f.file_id ++ "," ++ f.file_name)))],
     [.dbRead "get_public_files"])

/-- `handle_list_private` (lines 407-420): `get_files(owner_id=
self.user_id, is_public=False)`; a `None` user id means the owner
filter is simply not applied. -/
def handle_list_private (sys : Sys) (conn : Conn) : List Out × List Event :=
  let privs := get_files sys conn.userId (some false)
  if privs.isEmpty then
    ([.resp NO_FILES_PRIVATE], [.dbRead "get_files"])
  else
    ([.resp (PRIVATE_LIST ++ SEP ++ String.intercalate SEP
        (privs.map (·.file_name)))],
     [.dbRead "get_files"])

/-- Owner name as `list_shared_files` resolves it (lines 429-430): the
owner row's username, or `public` when the row is absent. -/
def ownerNameOf (sys : Sys) (r : FileRecord) : String :=
  match get_user_by_id sys r.owner_id with
  | some o => o.username
  | none => "public"

/-- `list_shared_files` (lines 422-445): lists the *public* files,
resolving each owner's username and skipping records whose `owner_id`
is 0. -/
def list_shared_files (sys : Sys) : List Out × List Event :=
  let allPub := get_files sys none (some true)
  if allPub.isEmpty then
    ([.resp NO_FILES_SHARED], [.dbRead "get_files"])
  else
    let formatted := allPub.filterMap (fun r =>
      if r.owner_id ≠ 0 then some (ownerNameOf sys r ++ "/" ++ r.file_name)
      else none)
    if formatted.isEmpty then
      ([.resp NO_FILES_SHARED], [.dbRead "get_files"])
    else
      ([.resp (SHARED_LIST ++ SEP ++ String.intercalate SEP formatted)],
       [.dbRead "get_files"])

/-- `make_public_admin` (lines 448-483, in `thread_functions.py`).  The
database lookup `get_file_record(file_name, owner_id)` is not defined
in the sources; modelled from the spec (section 6 `MetadataStore.getFile`)
as the record with that name and owner, any visibility. -/
def get_file_record (sys : Sys) (name : String) (owner : Nat) :
    Option FileRecord :=
  sys.files.find? (fun r => r.file_name == name && r.owner_id == owner)

def make_public_admin (sys : Sys) (owner_username file_name : String) :
    Sys × List Out × List Event :=
  let so := basename owner_username
  let sf := basename file_name
  match get_user_id_by_username sys so with
  | none =>
    (sys, [.resp FILE_NOT_FOUND], [.dbRead "get_user_id_by_username"])
  | some oid =>
    if oid = 0 then
      (sys, [.resp FILE_NOT_FOUND], [.dbRead "get_user_id_by_username"])
    else
      match get_file_record sys sf oid with
      | none =>
        (sys, [.resp FILE_NOT_FOUND],
         [.dbRead "get_user_id_by_username", .dbRead "get_file_record"])
      | some rec =>
        let privp := pathJoin (pathJoin uploadDir so) sf
        let sharedp := pathJoin (pathJoin sharedUploadsDir so) sf
        let pubp := pathJoin publicFilesDir sf
        let src :=
          if (fsLookup sys.fs (abspath privp)).isSome then some privp
          else if (fsLookup sys.fs (abspath sharedp)).isSome then some sharedp
          else none
        match src with
        | none =>
          (sys, [.resp FILE_NOT_FOUND],
           [.dbRead "get_user_id_by_username", .dbRead "get_file_record"])
        | some sp =>
          let bytes := (fsLookup sys.fs (abspath sp)).getD []
          let sys2 := { sys with fs := fsStore sys.fs (abspath pubp) bytes }
          let sys3 := (update_file_visibility sys2 rec.file_id true).2
          (sys3, [.resp ADMIN_PUBLIC_SUCCESS],
           [.dbRead "get_user_id_by_username", .dbRead "get_file_record",
            .fsCopy sp pubp, .dbWrite "update_file_visibility"])

/-- `make_public_user` (lines 485-508). -/
def make_public_user (sys : Sys) (conn : Conn) (file_name : String) :
    Sys × List Out × List Event :=
  let safe := basename file_name
  match get_private_file_record sys safe conn.userId with
  | none =>
    (sys, [.resp FILE_NOT_FOUND], [.dbRead "get_private_file_record"])
  | some rec =>
    match conn.username with
    | none =>
      (sys, [.resp (ERROR_RESPONSE ++ SEP ++ "internal exception")],
       [.dbRead "get_private_file_record"])
    | some u =>
      let privp := pathJoin (pathJoin uploadDir u) safe
      match fsLookup sys.fs (abspath privp) with
      | none =>
        (sys, [.resp FILE_NOT_FOUND], [.dbRead "get_private_file_record"])
      | some bytes =>
        let pubp := pathJoin publicFilesDir safe
        let sys2 := { sys with fs := fsStore sys.fs (abspath pubp) bytes }
        let sys3 := (update_file_visibility sys2 rec.file_id true).2
        (sys3, [.resp USER_PUBLIC_SUCCESS],
         [.dbRead "get_private_file_record", .fsCopy privp pubp,
          .dbWrite "update_file_visibility"])

/-- `make_shared_user` (lines 510-549): copies a private file into the
recipient's shared directory and inserts a second record for it; the
insert's return value is ignored. -/
def make_shared_user (sys : Sys) (conn : Conn)
    (file_name recipient_username : String) : Sys × List Out × List Event :=
  let safe := basename file_name
  match get_private_file_record sys safe conn.userId with
  | none =>
    (sys, [.resp FILE_NOT_FOUND], [.dbRead "get_private_file_record"])
  | some rec =>
    match get_user_by_username sys recipient_username with
    | none =>
      (sys, [.resp USER_NOT_FOUND],
       [.dbRead "get_private_file_record", .dbRead "get_user_by_username"])
    | some recp =>
      match conn.username with
      | none =>
        (sys, [.resp (ERROR_RESPONSE ++ SEP ++ "Error sharing file.")],
         [.dbRead "get_private_file_record", .dbRead "get_user_by_username"])
      | some u =>
        let privp := pathJoin (pathJoin uploadDir u) safe
        match fsLookup sys.fs (abspath privp) with
        | none =>
          (sys, [.resp FILE_NOT_FOUND],
           [.dbRead "get_private_file_record", .dbRead "get_user_by_username"])
        | some bytes =>
          let sharedp :=
            pathJoin (pathJoin sharedUploadsDir recipient_username) safe
          let sys2 := { sys with fs := fsStore sys.fs (abspath sharedp) bytes }
          let sys3 := (add_file_record sys2 conn.userId safe rec.file_size
            false (some recp.id)).2
          (sys3, [.resp USER_SHARED_SUCCESS],
           [.dbRead "get_private_file_record", .dbRead "get_user_by_username",
            .fsCopy privp sharedp, .dbWrite "add_file_record"])

/-- `admin_delete_public_file` (lines 551-579).  When the session data
lookup yields nothing, the `session_data['user_id']` subscript raises
and the dispatcher's outer `except Exception` answers with the generic
internal error, so no database or filesystem operation happens. -/
def admin_delete_public_file (sys : Sys) (sessionId : Option String)
    (fileIdStr : String) : Sys × List Out × List Event :=
  match get_session_data sys sessionId with
  | none => (sys, [.resp INTERNAL_ERROR_RESPONSE], [])
  | some sd =>
    if sd.role ≠ "admin" then
      (sys, [.resp PERMISSION_DENIED], [])
    else
      match delete_file sys fileIdStr sd.userId sd.role with
      | (some (fname, _, isPub), sys2) =>
        if fname ≠ "" ∧ isPub then
          let fp := abspath (pathJoin publicFilesDir fname)
          match fsLookup sys2.fs fp with
          | some _ =>
            ({ sys2 with fs := fsErase sys2.fs fp },
             [.resp (ADMIN_DELETE_SUCCESS ++ SEP ++ "File '" ++ fname ++
               "' and record deleted.")],
             [.dbWrite "delete_file", .fsRemove fp])
          | none =>
            (sys2,
             [.resp (ADMIN_DELETE_SUCCESS ++ SEP ++ "Record for '" ++ fname ++
               "' deleted, but file not found on disk.")],
             [.dbWrite "delete_file"])
        else
          (sys2,
           [.resp (ADMIN_DELETE_FAILED ++ SEP ++ "Failed to delete file ID '" ++
             fileIdStr ++ "'. It may not exist or may not be public.")],
           [.dbWrite "delete_file"])
      | (none, sys2) =>
        (sys2,
         [.resp (ADMIN_DELETE_FAILED ++ SEP ++ "Failed to delete file ID '" ++
           fileIdStr ++ "'. It may not exist or may not be public.")],
         [.dbWrite "delete_file"])

/-- `handle_make_file_public_admin` (`server_auth.py` lines 82-117):
moves the client-supplied *full source path* — used as given, no
base-name reduction, no containment check — into the hardcoded
`public_files` directory. -/
def handle_make_file_public_admin (sys : Sys) (current_role : String)
    (full_source_path : String) : Sys × List Out × List Event :=
  if current_role ≠ "admin" then
    (sys, [.resp PERMISSION_DENIED], [])
  else
    let filepath := full_source_path
    let file_basename := basename filepath
    let public_filepath := pathJoin publicFilesDir file_basename
    match fsLookup sys.fs (abspath filepath) with
    | none =>
      (sys, [.resp (ADMIN_PUBLIC_FAILED ++ SEP ++
        "Source file not found on server.")], [])
    | some bytes =>
      let fs2 :=
        fsStore (fsErase sys.fs (abspath filepath)) (abspath public_filepath) bytes
      ({ sys with fs := fs2 },
       [.resp (ADMIN_PUBLIC_SUCCESS ++ SEP ++ file_basename)],
       [.fsMove filepath public_filepath])

/-! ## Command dispatcher (`handle_client_connection`, lines 41-223) -/

/-- Result of dispatching one already-split command line. -/
structure StepResult where
  sys : Sys
  conn : Conn
  outs : List Out
  events : List Event
  stream : List (List Nat)
  closed : Bool
deriving Repr, DecidableEq

def fromHR (conn : Conn) (h : HandlerResult) : StepResult :=
  ⟨h.sys, conn, h.outs, h.events, h.stream, false⟩

/-- One iteration of the command loop on an already-split command
(`parts = command_str.split(separator)`), faithful to the `elif` chain:
length guards first, session checks exactly where the source has them
(note `DOWNLOAD_SERVER_PUBLIC` has none and `ADMIN_DELETE_FILE` defers
to its handler with the *connection's* session). -/
def dispatch (sys : Sys) (conn : Conn) (stream : List (List Nat))
    (parts : List String) : StepResult :=
  let cmd := parts.getD 0 ""
  let invalidSession : StepResult :=
    ⟨sys, conn, [.resp INVALID_SESSION], [], stream, false⟩
  if cmd = REGISTER_CMD then
    if 3 ≤ parts.length then
      let rr := auth_register_user sys (parts.getD 1 "") (parts.getD 2 "")
      ⟨rr.1, conn, [.resp rr.2], [], stream, false⟩
    else
      ⟨sys, conn,
       [.resp (ERROR_RESPONSE ++ SEP ++ "Invalid REGISTER command format.")],
       [], stream, false⟩
  else if cmd = LOGIN_CMD then
    if 3 ≤ parts.length then
      let rr := auth_login_user sys (parts.getD 1 "") (parts.getD 2 "")
      if strStartsWith rr.2 LOGIN_SUCCESS then
        let fields := splitOnStr rr.2 SEP
        let uname := fields.getD 2 ""
        ⟨rr.1,
         ⟨some (fields.getD 1 ""), some uname, some (fields.getD 3 ""),
          get_user_id_by_username rr.1 uname⟩,
         [.resp rr.2], [], stream, false⟩
      else ⟨rr.1, conn, [.resp rr.2], [], stream, false⟩
    else
      ⟨sys, conn,
       [.resp (ERROR_RESPONSE ++ SEP ++ "Invalid LOGIN command format.")],
       [], stream, false⟩
  else if cmd = LOGOUT_CMD then
    if decide (2 ≤ parts.length) &&
        (match conn.sessionId with
         | some t => parts.getD 1 "" == t
         | none => false) then
      let rr := auth_logout_user sys conn.sessionId
      ⟨rr.1, ⟨none, none, none, none⟩, [.resp rr.2], [], stream, false⟩
    else
      ⟨sys, conn,
       [.resp (ERROR_RESPONSE ++ SEP ++ "Invalid session or command format.")],
       [], stream, false⟩
  else if cmd = QUIT_CMD then
    let rr := auth_logout_user sys conn.sessionId
    ⟨rr.1, conn, [], [], stream, true⟩
  else if cmd = UPLOAD_PRIVATE_CMD then
    if decide (4 ≤ parts.length) && is_valid_session sys (parts.getD 1 "") then
      fromHR conn (handle_upload_file sys conn stream (parts.getD 2 "")
        (parts.getD 3 "") none true false)
    else invalidSession
  else if cmd = UPLOAD_PUBLIC_CMD then
    if decide (4 ≤ parts.length) && is_valid_session sys (parts.getD 1 "") then
      fromHR conn (handle_upload_file sys conn stream (parts.getD 2 "")
        (parts.getD 3 "") none false true)
    else invalidSession
  else if cmd = UPLOAD_FOR_SHARING_CMD then
    if decide (5 ≤ parts.length) && is_valid_session sys (parts.getD 2 "") then
      fromHR conn (handle_upload_file sys conn stream (parts.getD 3 "")
        (parts.getD 4 "") (some (parts.getD 1 "")) false false)
    else invalidSession
  else if cmd = DOWNLOAD_PRIVATE_CMD then
    if decide (3 ≤ parts.length) && is_valid_session sys (parts.getD 1 "") then
      let dl := handle_download_file sys conn (parts.getD 2 "") true false
      ⟨sys, conn, dl.1, dl.2, stream, false⟩
    else invalidSession
  else if cmd = LIST_PRIVATE_CMD then
    if decide (2 ≤ parts.length) && is_valid_session sys (parts.getD 1 "") then
      let ls := handle_list_private sys conn
      ⟨sys, conn, ls.1, ls.2, stream, false⟩
    else invalidSession
  else if cmd = LIST_PUBLIC_CMD then
    if decide (2 ≤ parts.length) && is_valid_session sys (parts.getD 1 "") then
      let ls := handle_list_public_files sys
      ⟨sys, conn, ls.1, ls.2, stream, false⟩
    else invalidSession
  else if cmd = DOWNLOAD_SERVER_PUBLIC_CMD then
    if 2 ≤ parts.length then
      let dl := handle_download_file sys conn (parts.getD 1 "") false true
      ⟨sys, conn, dl.1, dl.2, stream, false⟩
    else
      ⟨sys, conn,
       [.resp (ERROR_RESPONSE ++ SEP ++
         "Invalid DOWNLOAD_SERVER_PUBLIC command format.")],
       [], stream, false⟩
  else if cmd = DOWNLOAD_SHARED_CMD then
    if decide (3 ≤ parts.length) && is_valid_session sys (parts.getD 1 "") then
      let dl := handle_download_file sys conn (parts.getD 2 "") false false
      ⟨sys, conn, dl.1, dl.2, stream, false⟩
    else invalidSession
  else if cmd = LIST_SHARED_CMD then
    if decide (2 ≤ parts.length) && is_valid_session sys (parts.getD 1 "") then
      let ls := list_shared_files sys
      ⟨sys, conn, ls.1, ls.2, stream, false⟩
    else invalidSession
  else if cmd = MAKE_PUBLIC_ADMIN_CMD then
    if decide (4 ≤ parts.length) && is_valid_session sys (parts.getD 1 "") then
      let owner_username := (splitSlash (parts.getD 2 "")).getD 0 ""
      match get_session_data sys (some (parts.getD 1 "")) with
      | some sd =>
        if sd.role == "admin" then
          let mk := make_public_admin sys owner_username (parts.getD 3 "")
          ⟨mk.1, conn, mk.2.1, mk.2.2, stream, false⟩
        else ⟨sys, conn, [.resp PERMISSION_DENIED], [], stream, false⟩
      | none => ⟨sys, conn, [.resp PERMISSION_DENIED], [], stream, false⟩
    else
      ⟨sys, conn,
       [.resp (ERROR_RESPONSE ++ SEP ++
         "Invalid MAKE_PUBLIC_ADMIN command format.")],
       [], stream, false⟩
  else if cmd = MAKE_PUBLIC_USER_CMD then
    if decide (3 ≤ parts.length) && is_valid_session sys (parts.getD 1 "") then
      if conn.userRole == some "user" || conn.userRole == some "admin" then
        let mk := make_public_user sys conn (parts.getD 2 "")
        ⟨mk.1, conn, mk.2.1, mk.2.2, stream, false⟩
      else ⟨sys, conn, [.resp PERMISSION_DENIED], [], stream, false⟩
    else invalidSession
  else if cmd = MAKE_SHARED_USER_CMD then
    if decide (4 ≤ parts.length) && is_valid_session sys (parts.getD 1 "") then
      if conn.userRole == some "user" || conn.userRole == some "admin" then
        let mk := make_shared_user sys conn (parts.getD 2 "") (parts.getD 3 "")
        ⟨mk.1, conn, mk.2.1, mk.2.2, stream, false⟩
      else ⟨sys, conn, [.resp PERMISSION_DENIED], [], stream, false⟩
    else invalidSession
  else if cmd = ADMIN_DELETE_FILE_CMD then
    if parts.length < 3 then
      ⟨sys, conn,
       [.resp (ERROR_RESPONSE ++ SEP ++
         "Invalid command format. Usage: ADMIN_DELETE_FILE <session_id> <file_id>")],
       [], stream, false⟩
    else
      let ad := admin_delete_public_file sys conn.sessionId (parts.getD 2 "")
      ⟨ad.1, conn, ad.2.1, ad.2.2, stream, false⟩
  else
    ⟨sys, conn, [], [], stream, false⟩

/-! ## Concrete states used by counterexamples and witnesses -/

/-- A server state with two registered users (alice, and the admin
boss), both logged in. -/
def sysA : Sys := {
  users := [⟨1, "alice", .hashed 0 (bcryptDigest 0 "pw"), "user", some "s1"⟩,
            ⟨2, "boss", .hashed 1 (bcryptDigest 1 "pw2"), "admin", some "s2"⟩],
  files := [],
  sessions := [("s1", ⟨"alice", "user", 1⟩), ("s2", ⟨"boss", "admin", 2⟩)],
  fs := [],
  nextUserId := 3, nextFileId := 1, entropy := 5 }

/-- A server state holding one public file on disk and in the metadata
store, with no live session at all. -/
def sysPub : Sys := {
  users := [⟨1, "alice", .hashed 0 (bcryptDigest 0 "pw"), "user", none⟩],
  files := [⟨1, 1, "p.txt", 2, true, none⟩],
  sessions := [],
  fs := [("/srv/public_files/p.txt", [9, 9])],
  nextUserId := 2, nextFileId := 2, entropy := 0 }

/-- Connection state of alice's logged-in handler. -/
def connAlice : Conn := ⟨some "s1", some "alice", some "user", some 1⟩

/-- Connection state of the admin's logged-in handler. -/
def connBoss : Conn := ⟨some "s2", some "boss", some "admin", some 2⟩

/-- Connection state of a handler that never logged in. -/
def connAnon : Conn := ⟨none, none, none, none⟩

/-! ## C1: session validation before any file operation -/

/-- The commands whose dispatch branch guards the handler call with
`is_valid_session` and answers `INVALID_SESSION` otherwise. -/
def sessionGuardedCmds : List String :=
  [UPLOAD_PRIVATE_CMD, UPLOAD_PUBLIC_CMD, UPLOAD_FOR_SHARING_CMD,
   DOWNLOAD_PRIVATE_CMD, LIST_PRIVATE_CMD, LIST_PUBLIC_CMD,
   DOWNLOAD_SHARED_CMD, LIST_SHARED_CMD, MAKE_PUBLIC_USER_CMD,
   MAKE_SHARED_USER_CMD]

/-- Index of the session-id field within the split command
(`UPLOAD_FOR_SHARE` carries it third, everything else second). -/
def sessionFieldIdx (cmd : String) : Nat :=
  if cmd = UPLOAD_FOR_SHARING_CMD then 2 else 1

/-- C1, counterexample.  `DOWNLOAD_SERVER_PUBLIC` is a download
command the spec's dispatch table marks as requiring a valid session,
yet with an empty session store (so *no* session id validates) and no
session field in the command at all, the handler still dispatches to
the download file operation: it reads the metadata record, reads the
file bytes from disk and streams them, and never sends an
auth-required or invalid-session response. -/
theorem c1_counterexample :
    sysPub.sessions = [] ∧
    (dispatch sysPub connAnon [] [DOWNLOAD_SERVER_PUBLIC_CMD, "p.txt"]).events =
      [Event.dbRead "get_public_file_record",
       Event.fsRead "/srv/public_files/p.txt"] ∧
    (dispatch sysPub connAnon [] [DOWNLOAD_SERVER_PUBLIC_CMD, "p.txt"]).outs =
      [Out.resp (DOWNLOAD_READY ++ SEP ++ "p.txt" ++ SEP ++ "2"),
       Out.bytes [9, 9], Out.resp DOWNLOAD_COMPLETE] ∧
    Out.resp INVALID_SESSION ∉
      (dispatch sysPub connAnon [] [DOWNLOAD_SERVER_PUBLIC_CMD, "p.txt"]).outs ∧
    Out.resp AUTH_REQUIRED ∉
      (dispatch sysPub connAnon [] [DOWNLOAD_SERVER_PUBLIC_CMD, "p.txt"]).outs := by
  refine ⟨rfl, by decide, by decide, by decide, by decide⟩

/-- C1, amended.  For every authenticated command except
`DOWNLOAD_SERVER_PUBLIC` and `ADMIN_DELETE_FILE`, a missing or invalid
session-id field makes the dispatcher answer without dispatching to
any file or metadata operation: the ten session-guarded commands
answer exactly `INVALID_SESSION`, `MAKE_PUBLIC_ADMIN` answers its
command-format error, and `ADMIN_DELETE_FILE` (which consults only the
connection's bound session, inside its handler) answers its usage
error or the generic internal error; in each case the server state,
connection state and network stream are untouched and no filesystem or
metadata event occurs.  `DOWNLOAD_SERVER_PUBLIC` performs no session
check at all (see the counterexample). -/
theorem c1_amended :
    (∀ (sys : Sys) (conn : Conn) (stream : List (List Nat)) (cmd : String)
        (rest : List String),
      cmd ∈ sessionGuardedCmds →
      is_valid_session sys ((cmd :: rest).getD (sessionFieldIdx cmd) "") = false →
      dispatch sys conn stream (cmd :: rest) =
        ⟨sys, conn, [.resp INVALID_SESSION], [], stream, false⟩) ∧
    (∀ (sys : Sys) (conn : Conn) (stream : List (List Nat)) (rest : List String),
      is_valid_session sys ((MAKE_PUBLIC_ADMIN_CMD :: rest).getD 1 "") = false →
      dispatch sys conn stream (MAKE_PUBLIC_ADMIN_CMD :: rest) =
        ⟨sys, conn,
         [.resp (ERROR_RESPONSE ++ SEP ++
           "Invalid MAKE_PUBLIC_ADMIN command format.")], [], stream, false⟩) ∧
    (∀ (sys : Sys) (conn : Conn) (stream : List (List Nat)) (rest : List String),
      get_session_data sys conn.sessionId = none →
      dispatch sys conn stream (ADMIN_DELETE_FILE_CMD :: rest) =
        ⟨sys, conn,
         [.resp (ERROR_RESPONSE ++ SEP ++
           "Invalid command format. Usage: ADMIN_DELETE_FILE <session_id> <file_id>")],
         [], stream, false⟩ ∨
      dispatch sys conn stream (ADMIN_DELETE_FILE_CMD :: rest) =
        ⟨sys, conn, [.resp INTERNAL_ERROR_RESPONSE], [], stream, false⟩) := by
  refine ⟨?_, ?_, ?_⟩
  · intro sys conn stream cmd rest hmem hv
    simp only [sessionGuardedCmds, List.mem_cons, List.not_mem_nil, or_false] at hmem
    rcases hmem with rfl | rfl | rfl | rfl | rfl | rfl | rfl | rfl | rfl | rfl <;>
      simp [sessionFieldIdx] at hv <;>
      simp [dispatch, hv]
  · intro sys conn stream rest hv
    simp at hv
    simp [dispatch, hv]
  · intro sys conn stream rest hv
    by_cases hlen : 2 ≤ rest.length
    · right
      have hlt : ¬ (ADMIN_DELETE_FILE_CMD :: rest).length < 3 := by
        simp; omega
      simp [dispatch, hlt, admin_delete_public_file, hv]
      omega
    · left
      have hlt : (ADMIN_DELETE_FILE_CMD :: rest).length < 3 := by
        simp; omega
      simp [dispatch, hlt]
      exact fun h => absurd h hlen

/-- C1, amended, witness: with an empty session store an
`UPLOAD_PRIVATE`, a `MAKE_PUBLIC_ADMIN` and an `ADMIN_DELETE_FILE`
each bounce off without any file or metadata operation. -/
theorem c1_amended_witness :
    dispatch sysPub connAnon [] [UPLOAD_PRIVATE_CMD, "sX", "f.txt", "3"] =
      ⟨sysPub, connAnon, [.resp INVALID_SESSION], [], [], false⟩ ∧
    dispatch sysPub connAnon [] [MAKE_PUBLIC_ADMIN_CMD, "sX", "alice", "f.txt"] =
      ⟨sysPub, connAnon,
       [.resp (ERROR_RESPONSE ++ SEP ++
         "Invalid MAKE_PUBLIC_ADMIN command format.")], [], [], false⟩ ∧
    (dispatch sysPub connAnon [] [ADMIN_DELETE_FILE_CMD, "sX", "1"] =
      ⟨sysPub, connAnon,
       [.resp (ERROR_RESPONSE ++ SEP ++
         "Invalid command format. Usage: ADMIN_DELETE_FILE <session_id> <file_id>")],
       [], [], false⟩ ∨
     dispatch sysPub connAnon [] [ADMIN_DELETE_FILE_CMD, "sX", "1"] =
      ⟨sysPub, connAnon, [.resp INTERNAL_ERROR_RESPONSE], [], [], false⟩) :=
  ⟨c1_amended.1 sysPub connAnon [] UPLOAD_PRIVATE_CMD ["sX", "f.txt", "3"]
     (by decide) (by decide),
   c1_amended.2.1 sysPub connAnon [] ["sX", "alice", "f.txt"] (by decide),
   c1_amended.2.2 sysPub connAnon [] ["sX", "1"] (by decide)⟩

/-! ## C10: LOGOUT is bound to the connection's own session -/

/-- C10.  A `LOGOUT` whose session field differs from the session
bound to the issuing connection — including a valid session belonging
to another connection, or any field after the connection already
logged out (bound session `None`) — answers the error response and
leaves the whole server state untouched: no session is destroyed.  The
hypothesis is exactly "the supplied field does not match the bound
session" (`parts[1] == self.session_id` is false, where a Python
comparison of a string with `None` is always false). -/
theorem c10_logout_foreign_session (sys : Sys) (conn : Conn)
    (stream : List (List Nat)) (rest : List String)
    (h : (match conn.sessionId with
          | some t => rest.getD 0 "" == t
          | none => false) = false) :
    dispatch sys conn stream (LOGOUT_CMD :: rest) =
      ⟨sys, conn,
       [.resp (ERROR_RESPONSE ++ SEP ++ "Invalid session or command format.")],
       [], stream, false⟩ := by
  cases hs : conn.sessionId with
  | none => simp [dispatch, hs]
  | some t =>
    rw [hs] at h
    simp at h
    simp [dispatch, hs, h]

/-- C10, witness: alice's connection (bound to session `s1`) issues
`LOGOUT` with the admin's valid session id `s2`; the server answers the
error and destroys nothing. -/
theorem c10_logout_foreign_session_witness :
    dispatch sysA connAlice [] [LOGOUT_CMD, "s2"] =
      ⟨sysA, connAlice,
       [.resp (ERROR_RESPONSE ++ SEP ++ "Invalid session or command format.")],
       [], [], false⟩ :=
  c10_logout_foreign_session sysA connAlice [] ["s2"] (by decide)

/-! ## C8: logout is idempotent -/

/-- C8.  From any state where the connection is bound to a live
session, `LOGOUT` succeeds once — answering `LOGOUT_SUCCESS`, removing
exactly that session-store entry, clearing the persisted token on the
user record, and touching nothing else (files, disk, stream all
unchanged, no file or metadata event) — and a second identical
`LOGOUT` reports the invalid-session error and changes nothing.
Neither invocation reaches an error state. -/
theorem c8_logout_idempotent (sys : Sys) (conn : Conn)
    (stream : List (List Nat)) (sid : String)
    (hconn : conn.sessionId = some sid)
    (hsess : is_valid_session sys sid = true) :
    (dispatch sys conn stream [LOGOUT_CMD, sid]).outs =
      [.resp LOGOUT_SUCCESS] ∧
    (dispatch sys conn stream [LOGOUT_CMD, sid]).conn =
      ⟨none, none, none, none⟩ ∧
    (dispatch sys conn stream [LOGOUT_CMD, sid]).sys.sessions =
      sys.sessions.filter (fun e => !(e.1 == sid)) ∧
    (dispatch sys conn stream [LOGOUT_CMD, sid]).sys.files = sys.files ∧
    (dispatch sys conn stream [LOGOUT_CMD, sid]).sys.fs = sys.fs ∧
    (dispatch sys conn stream [LOGOUT_CMD, sid]).sys.users =
      sys.users.map (fun w =>
        if w.session_id == some sid then { w with session_id := none } else w) ∧
    (dispatch sys conn stream [LOGOUT_CMD, sid]).events = [] ∧
    (dispatch sys conn stream [LOGOUT_CMD, sid]).stream = stream ∧
    (dispatch sys conn stream [LOGOUT_CMD, sid]).closed = false ∧
    is_valid_session (dispatch sys conn stream [LOGOUT_CMD, sid]).sys sid =
      false ∧
    dispatch (dispatch sys conn stream [LOGOUT_CMD, sid]).sys
        (dispatch sys conn stream [LOGOUT_CMD, sid]).conn stream
        [LOGOUT_CMD, sid] =
      ⟨(dispatch sys conn stream [LOGOUT_CMD, sid]).sys,
       (dispatch sys conn stream [LOGOUT_CMD, sid]).conn,
       [.resp (ERROR_RESPONSE ++ SEP ++ "Invalid session or command format.")],
       [], stream, false⟩ := by
  have h1 : dispatch sys conn stream [LOGOUT_CMD, sid] =
      ⟨(auth_logout_user sys conn.sessionId).1, ⟨none, none, none, none⟩,
       [.resp (auth_logout_user sys conn.sessionId).2], [], stream, false⟩ := by
    simp [dispatch, hconn]
  have h2 : auth_logout_user sys conn.sessionId =
      ({ sys with
          sessions := sys.sessions.filter (fun e => !(e.1 == sid)),
          users := sys.users.map (fun w =>
            if w.session_id == some sid then { w with session_id := none }
            else w) },
       LOGOUT_SUCCESS) := by
    rw [hconn]
    simp [auth_logout_user, hsess]
  have hinv : (sys.sessions.filter (fun e => !(e.1 == sid))).any
      (fun e => e.1 == sid) = false := by
    simp [List.any_eq_true, List.mem_filter]
  rw [h1, h2]
  refine ⟨rfl, rfl, rfl, rfl, rfl, rfl, rfl, rfl, rfl, hinv, ?_⟩
  simp [dispatch]

/-- C8, witness: alice logs out twice with her live session `s1`. -/
theorem c8_logout_idempotent_witness :
    (dispatch sysA connAlice [] [LOGOUT_CMD, "s1"]).outs =
      [.resp LOGOUT_SUCCESS] ∧
    dispatch (dispatch sysA connAlice [] [LOGOUT_CMD, "s1"]).sys
        (dispatch sysA connAlice [] [LOGOUT_CMD, "s1"]).conn []
        [LOGOUT_CMD, "s1"] =
      ⟨(dispatch sysA connAlice [] [LOGOUT_CMD, "s1"]).sys,
       (dispatch sysA connAlice [] [LOGOUT_CMD, "s1"]).conn,
       [.resp (ERROR_RESPONSE ++ SEP ++ "Invalid session or command format.")],
       [], [], false⟩ :=
  ⟨(c8_logout_idempotent sysA connAlice [] "s1" rfl (by decide)).1,
   (c8_logout_idempotent sysA connAlice [] "s1" rfl (by decide)).2.2.2.2.2.2.2.2.2.2⟩

/-! ## C2: path-traversal defense -/

/-- Filesystem paths an event touches. -/
def fsPathsOf (e : Event) : List String :=
  match e with
  | .fsWrite p => [p]
  | .fsRead p => [p]
  | .fsRemove p => [p]
  | .fsCopy a b => [a, b]
  | .fsMove a b => [a, b]
  | .dbRead _ => []
  | .dbWrite _ => []

/-- A server state with an admin session and a file sitting at
`/etc/secret`, outside every tier directory. -/
def sysC2 : Sys := {
  users := [⟨1, "boss", .hashed 1 (bcryptDigest 1 "pw2"), "admin", some "s2"⟩],
  files := [],
  sessions := [("s2", ⟨"boss", "admin", 2⟩)],
  fs := [("/etc/secret", [1, 2, 3])],
  nextUserId := 2, nextFileId := 1, entropy := 0 }

/-- C2, counterexample.  The visibility-change operation
`handle_make_file_public_admin` (`server_auth.py`) moves the
client-supplied source path `/etc/secret` verbatim: the path is not
reduced to its base name before path construction, it resolves outside
all three tier directories, and the operation is not rejected — the
filesystem is modified (the file is moved into the public tier). -/
theorem c2_counterexample :
    (handle_make_file_public_admin sysC2 "admin" "/etc/secret").2.2 =
      [Event.fsMove "/etc/secret" "public_files/secret"] ∧
    (handle_make_file_public_admin sysC2 "admin" "/etc/secret").2.1 =
      [Out.resp (ADMIN_PUBLIC_SUCCESS ++ SEP ++ "secret")] ∧
    (handle_make_file_public_admin sysC2 "admin" "/etc/secret").1.fs ≠
      sysC2.fs ∧
    basename "/etc/secret" ≠ "/etc/secret" ∧
    strStartsWith (abspath "/etc/secret") (abspath uploadDir) = false ∧
    strStartsWith (abspath "/etc/secret") (abspath publicFilesDir) = false ∧
    strStartsWith (abspath "/etc/secret") (abspath sharedUploadsDir) = false := by
  refine ⟨by decide, by decide, by decide, by decide, by decide, by decide,
    by decide⟩

/-- Every filesystem path `upload_core` touches beyond its inherited
events is the resolved join of the base directory with the safe name,
and it passed the `startswith` containment check. -/
theorem upload_core_paths (sys : Sys) (stream : List (List Nat))
    (base safe : String) (size : Int) (owner : Option Nat) (pub : Bool)
    (recip : Option Nat) (ev0 : List Event) (e : Event) (p : String)
    (he : e ∈ (upload_core sys stream base safe size owner pub recip ev0).events)
    (hp : p ∈ fsPathsOf e) :
    e ∈ ev0 ∨
    (p = abspath (pathJoin base safe) ∧
     strStartsWith (abspath (pathJoin base safe)) (abspath base) = true) := by
  unfold upload_core at he
  by_cases hchk : strStartsWith (abspath (pathJoin base safe)) (abspath base) = true
  · cases hadd : add_file_record sys owner safe size pub recip with
    | mk ok sys2 =>
      cases ok with
      | false =>
        simp [hadd, hchk] at he
        rcases he with he | rfl
        · exact Or.inl he
        · simp [fsPathsOf] at hp
      | true =>
        by_cases hlen :
            (((recvLoop bufferSize stream size.toNat).1.length : Int) = size)
        · simp [hadd, hchk, hlen] at he
          rcases he with he | rfl | rfl
          · exact Or.inl he
          · simp [fsPathsOf] at hp
          · simp [fsPathsOf] at hp
            exact Or.inr ⟨hp, hchk⟩
        · simp [hadd, hchk, hlen] at he
          rcases he with he | rfl | rfl | rfl
          · exact Or.inl he
          · simp [fsPathsOf] at hp
          · simp [fsPathsOf] at hp
            exact Or.inr ⟨hp, hchk⟩
          · simp [fsPathsOf] at hp
            exact Or.inr ⟨hp, hchk⟩
  · rw [Bool.not_eq_true] at hchk
    simp [hchk] at he
    exact Or.inl he

/-- When `upload_core` records no filesystem write or removal, the disk
is unchanged. -/
theorem upload_core_fs (sys : Sys) (stream : List (List Nat))
    (base safe : String) (size : Int) (owner : Option Nat) (pub : Bool)
    (recip : Option Nat) (ev0 : List Event)
    (hq : ∀ p,
      Event.fsWrite p ∉ (upload_core sys stream base safe size owner pub recip ev0).events) :
    (upload_core sys stream base safe size owner pub recip ev0).sys.fs =
      sys.fs := by
  have hfs2 : (add_file_record sys owner safe size pub recip).2.fs = sys.fs := by
    cases owner <;> rfl
  unfold upload_core at hq ⊢
  by_cases hchk : strStartsWith (abspath (pathJoin base safe)) (abspath base) = true
  · cases hadd : add_file_record sys owner safe size pub recip with
    | mk ok sys2 =>
      rw [hadd] at hfs2
      cases ok with
      | false => simp [hadd, hchk]; exact hfs2
      | true =>
        exfalso
        by_cases hlen :
            (((recvLoop bufferSize stream size.toNat).1.length : Int) = size)
        · exact hq (abspath (pathJoin base safe)) (by simp [hadd, hchk, hlen])
        · exact hq (abspath (pathJoin base safe)) (by simp [hadd, hchk, hlen])
  · rw [Bool.not_eq_true] at hchk
    simp [hchk]

/-- Every filesystem path `download_core` touches beyond its inherited
events is the resolved join of the base directory with the base name of
the record's stored file name, and it passed the containment check. -/
theorem download_core_paths (sys : Sys) (base : String) (rec : FileRecord)
    (ev0 : List Event) (e : Event) (p : String)
    (he : e ∈ (download_core sys base rec ev0).2)
    (hp : p ∈ fsPathsOf e) :
    e ∈ ev0 ∨
    (p = abspath (pathJoin base (basename rec.file_name)) ∧
     strStartsWith (abspath (pathJoin base (basename rec.file_name)))
       (abspath base) = true) := by
  unfold download_core at he
  by_cases hchk : strStartsWith (abspath (pathJoin base (basename rec.file_name)))
      (abspath base) = true
  · cases hfind : fsLookup sys.fs (abspath (pathJoin base (basename rec.file_name))) with
    | none =>
      simp [hfind, hchk] at he
      exact Or.inl he
    | some data =>
      simp [hfind, hchk] at he
      rcases he with he | rfl
      · exact Or.inl he
      · simp [fsPathsOf] at hp
        exact Or.inr ⟨hp, hchk⟩
  · rw [Bool.not_eq_true] at hchk
    simp [hchk] at he
    exact Or.inl he

/-- Branch characterization of `handle_upload_file`: either an error
branch that leaves the filesystem alone and touches no path, or a call
to `upload_core` on the base-named file within one of the three
intended tier directories, with only metadata events inherited. -/
theorem handle_upload_file_cases (sys : Sys) (conn : Conn)
    (stream : List (List Nat)) (name sizeStr : String)
    (recip : Option String) (priv pub : Bool) :
    ((handle_upload_file sys conn stream name sizeStr recip priv pub).sys.fs =
        sys.fs ∧
     ∀ e ∈ (handle_upload_file sys conn stream name sizeStr recip priv pub).events,
       fsPathsOf e = []) ∨
    (∃ size base pb rc ev0,
      (∀ e ∈ ev0, fsPathsOf e = []) ∧
      (base = publicFilesDir ∨
       (∃ u, conn.username = some u ∧ base = pathJoin uploadDir u) ∨
       (∃ ru, recip = some ru ∧ base = pathJoin sharedUploadsDir ru)) ∧
      handle_upload_file sys conn stream name sizeStr recip priv pub =
        upload_core sys stream base (basename name) size conn.userId pb rc ev0) := by
  cases hpi : pyInt sizeStr with
  | none => left; simp [handle_upload_file, hpi, fsPathsOf]
  | some size =>
    cases priv with
    | true =>
      cases hu : conn.username with
      | none => left; simp [handle_upload_file, hpi, hu, fsPathsOf]
      | some u =>
        right
        exact ⟨size, pathJoin uploadDir u, false, none, [], by simp,
          Or.inr (Or.inl ⟨u, rfl, rfl⟩), by simp [handle_upload_file, hpi, hu]⟩
    | false =>
      cases pub with
      | true =>
        right
        exact ⟨size, publicFilesDir, true, none, [], by simp, Or.inl rfl,
          by simp [handle_upload_file, hpi]⟩
      | false =>
        cases hr : recip with
        | none => left; simp [handle_upload_file, hpi, hr, fsPathsOf]
        | some ru =>
          cases hur : get_user_by_username sys ru with
          | none => left; simp [handle_upload_file, hpi, hr, hur, fsPathsOf]
          | some urec =>
            right
            exact ⟨size, pathJoin sharedUploadsDir ru, false, some urec.id,
              [.dbRead "get_user_by_username"], by simp [fsPathsOf],
              Or.inr (Or.inr ⟨ru, rfl, rfl⟩),
              by simp [handle_upload_file, hpi, hr, hur]⟩

/-- Branch characterization of `handle_download_file`: either an error
branch touching no path, or a call to `download_core` on one of the
three intended tier directories. -/
theorem handle_download_file_cases (sys : Sys) (conn : Conn) (ident : String)
    (fromPriv fromPub : Bool) :
    (∀ e ∈ (handle_download_file sys conn ident fromPriv fromPub).2,
       fsPathsOf e = []) ∨
    (∃ base rec ev0,
      (∀ e ∈ ev0, fsPathsOf e = []) ∧
      (base = publicFilesDir ∨
       (∃ u, conn.username = some u ∧
         (base = pathJoin uploadDir u ∨ base = pathJoin sharedUploadsDir u))) ∧
      handle_download_file sys conn ident fromPriv fromPub =
        download_core sys base rec ev0) := by
  cases fromPriv with
  | true =>
    cases hrec : get_private_file_record sys (basename ident) conn.userId with
    | none => left; simp [handle_download_file, hrec, fsPathsOf]
    | some rec =>
      cases hu : conn.username with
      | none => left; simp [handle_download_file, hrec, hu, fsPathsOf]
      | some u =>
        right
        exact ⟨pathJoin uploadDir u, rec, [.dbRead "get_private_file_record"],
          by simp [fsPathsOf], Or.inr ⟨u, rfl, Or.inl rfl⟩,
          by simp [handle_download_file, hrec, hu]⟩
  | false =>
    cases fromPub with
    | true =>
      cases hrec : get_public_file_record sys (basename ident) with
      | none => left; simp [handle_download_file, hrec, fsPathsOf]
      | some rec =>
        right
        exact ⟨publicFilesDir, rec, [.dbRead "get_public_file_record"],
          by simp [fsPathsOf], Or.inl rfl,
          by simp [handle_download_file, hrec]⟩
    | false =>
      cases hrec : get_file_record_in_shared_folder sys (basename ident)
          conn.userId with
      | none => left; simp [handle_download_file, hrec, fsPathsOf]
      | some rec =>
        cases hu : conn.username with
        | none => left; simp [handle_download_file, hrec, hu, fsPathsOf]
        | some u =>
          right
          exact ⟨pathJoin sharedUploadsDir u, rec,
            [.dbRead "get_file_record_in_shared_folder"],
            by simp [fsPathsOf], Or.inr ⟨u, rfl, Or.inr rfl⟩,
            by simp [handle_download_file, hrec, hu]⟩

/-- C2, amended.  The path-traversal defense holds for every upload
and download, for every client-supplied filename: every filesystem
path these operations touch is the resolved absolute join of the
operation's intended base directory with the *base name* of a
filename, and that resolved path passed the `startswith` containment
check against the base directory; moreover an upload that records no
write leaves the disk unchanged (so a rejected upload touches
nothing), and a download never writes.  The guarantee does *not*
extend to the visibility-change operations: the admin make-public
handler of `server_auth.py` uses the raw client-supplied source path
with neither base-name reduction nor containment check (see the
counterexample). -/
theorem c2_amended :
    (∀ (sys : Sys) (conn : Conn) (stream : List (List Nat))
       (name sizeStr : String) (recip : Option String) (priv pub : Bool)
       (e : Event) (p : String),
      e ∈ (handle_upload_file sys conn stream name sizeStr recip priv pub).events →
      p ∈ fsPathsOf e →
      ∃ b, (b = publicFilesDir ∨
            (∃ u, conn.username = some u ∧ b = pathJoin uploadDir u) ∨
            (∃ ru, recip = some ru ∧ b = pathJoin sharedUploadsDir ru)) ∧
           p = abspath (pathJoin b (basename name)) ∧
           strStartsWith p (abspath b) = true) ∧
    (∀ (sys : Sys) (conn : Conn) (stream : List (List Nat))
       (name sizeStr : String) (recip : Option String) (priv pub : Bool),
      (∀ p, Event.fsWrite p ∉
        (handle_upload_file sys conn stream name sizeStr recip priv pub).events) →
      (handle_upload_file sys conn stream name sizeStr recip priv pub).sys.fs =
        sys.fs) ∧
    (∀ (sys : Sys) (conn : Conn) (ident : String) (fromPriv fromPub : Bool)
       (e : Event) (p : String),
      e ∈ (handle_download_file sys conn ident fromPriv fromPub).2 →
      p ∈ fsPathsOf e →
      ∃ b n, (b = publicFilesDir ∨
              (∃ u, conn.username = some u ∧
                (b = pathJoin uploadDir u ∨ b = pathJoin sharedUploadsDir u))) ∧
             p = abspath (pathJoin b (basename n)) ∧
             strStartsWith p (abspath b) = true) := by
  refine ⟨?_, ?_, ?_⟩
  · intro sys conn stream name sizeStr recip priv pub e p he hp
    rcases handle_upload_file_cases sys conn stream name sizeStr recip priv pub
      with ⟨_, hev⟩ | ⟨size, base, pb, rc, ev0, hev0, hbase, heq⟩
    · rw [hev e he] at hp
      exact absurd hp (List.not_mem_nil p)
    · rw [heq] at he
      rcases upload_core_paths _ _ _ _ _ _ _ _ _ _ _ he hp with h0 | ⟨rfl, hc⟩
      · rw [hev0 e h0] at hp
        exact absurd hp (List.not_mem_nil p)
      · exact ⟨base, hbase, rfl, hc⟩
  · intro sys conn stream name sizeStr recip priv pub hq
    rcases handle_upload_file_cases sys conn stream name sizeStr recip priv pub
      with ⟨hfs, _⟩ | ⟨size, base, pb, rc, ev0, hev0, hbase, heq⟩
    · exact hfs
    · rw [heq] at hq ⊢
      exact upload_core_fs _ _ _ _ _ _ _ _ _ hq
  · intro sys conn ident fromPriv fromPub e p he hp
    rcases handle_download_file_cases sys conn ident fromPriv fromPub
      with hev | ⟨base, rec, ev0, hev0, hbase, heq⟩
    · rw [hev e he] at hp
      exact absurd hp (List.not_mem_nil p)
    · rw [heq] at he
      rcases download_core_paths _ _ _ _ _ _ he hp with h0 | ⟨rfl, hc⟩
      · rw [hev0 e h0] at hp
        exact absurd hp (List.not_mem_nil p)
      · exact ⟨base, rec.file_name, hbase, rfl, hc⟩

/-! ## Transfer-loop lemmas -/

/-- The receive loop collects exactly the first `n` bytes the network
delivers: with a positive buffer and no empty chunk (an empty `recv`
means the peer closed), `recvLoopF` returns the `n`-byte prefix of the
delivered byte sequence — all of it, when fewer than `n` bytes ever
arrive. -/
theorem recvLoopF_take (buffer : Nat) (hb : 0 < buffer) :
    ∀ (fuel : Nat) (stream : List (List Nat)) (n : Nat), n ≤ fuel →
      (∀ c ∈ stream, c ≠ []) →
      (recvLoopF buffer fuel stream n).1 = stream.flatten.take n := by
  intro fuel
  induction fuel with
  | zero =>
    intro stream n hn _
    interval_cases n
    simp [recvLoopF]
  | succ fuel ih =>
    intro stream n hn hc
    cases n with
    | zero => simp [recvLoopF]
    | succ m =>
      cases stream with
      | nil => simp [recvLoopF]
      | cons c rest =>
        have hcne : c ≠ [] := hc c (List.mem_cons_self c rest)
        have hcpos : 0 < c.length := List.length_pos.mpr hcne
        have hkpos : 0 < min buffer (m + 1) := lt_min hb (Nat.succ_pos m)
        have hrne : c.take (min buffer (m + 1)) ≠ [] := by
          intro h
          have h2 := congrArg List.length h
          simp only [List.length_take, List.length_nil] at h2
          omega
        rw [recvLoopF]
        simp only [if_neg hrne]
        by_cases hcase : min buffer (m + 1) < c.length
        · have hr1 : (c.take (min buffer (m + 1))).length = min buffer (m + 1) := by
            simp only [List.length_take]
            omega
          simp only [if_pos hcase, hr1]
          rw [ih (c.drop (min buffer (m + 1)) :: rest)
            (m + 1 - min buffer (m + 1))
            (by omega)
            (by
              intro d hd
              rcases List.mem_cons.mp hd with rfl | hd2
              · intro h
                have h2 := congrArg List.length h
                simp only [List.length_drop, List.length_nil] at h2
                omega
              · exact hc d (List.mem_cons_of_mem c hd2))]
          simp only [List.flatten_cons]
          have h1 : c.take (min buffer (m + 1)) ++
              (c.drop (min buffer (m + 1))).take (m + 1 - min buffer (m + 1)) =
              c.take (m + 1) :=
            calc c.take (min buffer (m + 1)) ++
                (c.drop (min buffer (m + 1))).take (m + 1 - min buffer (m + 1))
                = c.take (min buffer (m + 1) + (m + 1 - min buffer (m + 1))) :=
                  (List.take_add c (min buffer (m + 1))
                    (m + 1 - min buffer (m + 1))).symm
              _ = c.take (m + 1) := by congr 1; omega
          have h2 : m + 1 - min buffer (m + 1) -
              (c.drop (min buffer (m + 1))).length = m + 1 - c.length := by
            simp only [List.length_drop]
            omega
          rw [List.take_append_eq_append_take, List.take_append_eq_append_take,
            ← List.append_assoc, h1, h2]
        · have hr2 : c.take (min buffer (m + 1)) = c :=
            List.take_of_length_le (by omega)
          have hr2len : (c.take (min buffer (m + 1))).length = c.length := by
            rw [hr2]
          simp only [if_neg hcase, hr2len, hr2]
          rw [ih rest (m + 1 - c.length) (by omega)
            (fun d hd => hc d (List.mem_cons_of_mem c hd))]
          simp only [List.flatten_cons]
          rw [List.take_append_eq_append_take]
          congr 1
          exact (List.take_of_length_le (by omega)).symm

/-- Specialization to the loop's entry point. -/
theorem recvLoop_take (buffer : Nat) (stream : List (List Nat)) (n : Nat)
    (hb : 0 < buffer) (hc : ∀ c ∈ stream, c ≠ []) :
    (recvLoop buffer stream n).1 = stream.flatten.take n :=
  recvLoopF_take buffer hb n stream n (le_refl n) hc

/-- The send loop's chunks concatenate back to the file contents. -/
theorem sendLoopF_flatten (buffer : Nat) (hb : 0 < buffer) :
    ∀ (fuel : Nat) (data : List Nat), data.length ≤ fuel →
      (sendLoopF buffer fuel data).flatten = data := by
  intro fuel
  induction fuel with
  | zero =>
    intro data hd
    cases data with
    | nil => rfl
    | cons x xs => simp at hd
  | succ fuel ih =>
    intro data hd
    cases data with
    | nil => rfl
    | cons x xs =>
      rw [sendLoopF]
      simp only [if_neg (Nat.pos_iff_ne_zero.mp hb), List.flatten_cons]
      rw [ih ((x :: xs).drop buffer)
        (by
          simp only [List.length_cons] at hd
          simp only [List.length_drop, List.length_cons]
          omega)]
      exact List.take_append_drop buffer (x :: xs)

/-- Specialization to the loop's entry point. -/
theorem sendLoop_flatten (buffer : Nat) (data : List Nat) (hb : 0 < buffer) :
    (sendLoop buffer data).flatten = data :=
  sendLoopF_flatten buffer hb data.length data (le_refl _)

/-! ## Filesystem lemmas -/

theorem fsLookup_fsStore (fs : List (String × List Nat)) (p : String)
    (v : List Nat) : fsLookup (fsStore fs p v) p = some v := by
  simp [fsLookup, fsStore]

theorem fsLookup_fsErase (fs : List (String × List Nat)) (p : String) :
    fsLookup (fsErase fs p) p = none := by
  induction fs with
  | nil => rfl
  | cons e t ih =>
    by_cases h : e.1 = p
    · simpa [fsErase, fsLookup, h] using ih
    · simpa [fsErase, fsLookup, h] using ih

/-! ## C3: incomplete uploads -/

/-- C3, counterexample.  Alice declares a 5-byte private upload of
`g.txt` but the connection delivers only 3 bytes.  The partial file is
deleted and the incomplete-upload error is sent — but the metadata
record (created *before* the byte stream, 5 bytes, owner alice) stays
in the store, pointing at bytes that are not on disk, contradicting
the claim that no record is left. -/
theorem c3_counterexample :
    (dispatch sysA connAlice [[1, 2, 3]]
      [UPLOAD_PRIVATE_CMD, "s1", "g.txt", "5"]).outs =
      [.resp READY_FOR_DATA,
       .resp (ERROR_RESPONSE ++ SEP ++ "Incomplete file upload.")] ∧
    fsLookup (dispatch sysA connAlice [[1, 2, 3]]
      [UPLOAD_PRIVATE_CMD, "s1", "g.txt", "5"]).sys.fs
      "/srv/uploads/alice/g.txt" = none ∧
    (dispatch sysA connAlice [[1, 2, 3]]
      [UPLOAD_PRIVATE_CMD, "s1", "g.txt", "5"]).sys.files =
      [⟨1, 1, "g.txt", 5, false, none⟩] := by
  refine ⟨by decide, by decide, by decide⟩

/-- C3, amended.  For every upload whose received byte count differs
from the declared filesize (shorter stream, peer disconnect, negative
declared size), the handler deletes the partial file from disk and
answers `READY_FOR_DATA` followed by the incomplete-upload error —
but the metadata record inserted before the transfer is *not* removed:
the record (with the declared size) remains in the store while the
bytes it points at are gone. -/
theorem c3_amended (sys : Sys) (stream : List (List Nat)) (base safe : String)
    (size : Int) (owner : Nat) (pub : Bool) (recip : Option Nat)
    (ev0 : List Event)
    (hchk : strStartsWith (abspath (pathJoin base safe)) (abspath base) = true)
    (hmis : ((recvLoop bufferSize stream size.toNat).1.length : Int) ≠ size) :
    (upload_core sys stream base safe size (some owner) pub recip ev0).outs =
      [.resp READY_FOR_DATA,
       .resp (ERROR_RESPONSE ++ SEP ++ "Incomplete file upload.")] ∧
    fsLookup (upload_core sys stream base safe size (some owner) pub recip ev0).sys.fs
      (abspath (pathJoin base safe)) = none ∧
    (⟨sys.nextFileId, owner, safe, size, pub, recip⟩ : FileRecord) ∈
      (upload_core sys stream base safe size (some owner) pub recip ev0).sys.files := by
  unfold upload_core
  simp only [hchk, Bool.not_true, Bool.false_eq_true, if_false, add_file_record]
  refine ⟨by simp [hmis], ?_, ?_⟩
  · simp only [hmis, if_false]
    exact fsLookup_fsErase _ _
  · simp [hmis]

/-- C3, amended, witness: base `uploads/alice`, declared size 5,
delivered bytes `[1, 2, 3]`. -/
theorem c3_amended_witness :
    (upload_core sysA [[1, 2, 3]] "uploads/alice" "g.txt" 5 (some 1) false
      none []).outs =
      [.resp READY_FOR_DATA,
       .resp (ERROR_RESPONSE ++ SEP ++ "Incomplete file upload.")] ∧
    fsLookup (upload_core sysA [[1, 2, 3]] "uploads/alice" "g.txt" 5 (some 1)
      false none []).sys.fs (abspath (pathJoin "uploads/alice" "g.txt")) =
      none ∧
    (⟨1, 1, "g.txt", 5, false, none⟩ : FileRecord) ∈
      (upload_core sysA [[1, 2, 3]] "uploads/alice" "g.txt" 5 (some 1) false
        none []).sys.files :=
  c3_amended sysA [[1, 2, 3]] "uploads/alice" "g.txt" 5 1 false none []
    (by decide) (by decide)

/-! ## C4: upload-then-download round trip -/

/-- The raw payload bytes among a handler's outputs, in order. -/
def sentBytes (outs : List Out) : List Nat :=
  (outs.filterMap (fun o => match o with
    | .bytes b => some b
    | .resp _ => none)).flatten

theorem sentBytes_chunks (a b : String) (chunks : List (List Nat)) :
    sentBytes ([.resp a] ++ chunks.map .bytes ++ [.resp b]) = chunks.flatten := by
  simp [sentBytes, List.filterMap_map, Function.comp_def]

/-- A complete upload: when the network delivers exactly the declared
number of bytes, `upload_core` stores them at the resolved path,
appends the metadata record, and acknowledges success. -/
theorem upload_core_success (sys : Sys) (stream : List (List Nat))
    (data : List Nat) (base name : String) (uid : Nat) (pub : Bool)
    (recip : Option Nat) (ev0 : List Event)
    (hflat : stream.flatten = data) (hcne : ∀ c ∈ stream, c ≠ [])
    (hchk : strStartsWith (abspath (pathJoin base name)) (abspath base) = true) :
    upload_core sys stream base name (data.length : Int) (some uid) pub recip
        ev0 =
      ⟨{ sys with
          files := sys.files ++
            [⟨sys.nextFileId, uid, name, (data.length : Int), pub, recip⟩],
          nextFileId := sys.nextFileId + 1,
          fs := fsStore sys.fs (abspath (pathJoin base name)) data },
       [.resp READY_FOR_DATA, .resp UPLOAD_SUCCESS],
       ev0 ++ [.dbWrite "add_file_record",
               .fsWrite (abspath (pathJoin base name))],
       (recvLoop bufferSize stream (data.length : Int).toNat).2⟩ := by
  have hrecv : (recvLoop bufferSize stream (data.length : Int).toNat).1 = data := by
    have : ((data.length : Int).toNat) = data.length := Int.toNat_ofNat _
    rw [this, recvLoop_take bufferSize stream data.length (by decide) hcne,
      hflat, List.take_length]
  unfold upload_core
  simp only [hchk, Bool.not_true, Bool.false_eq_true, if_false,
    add_file_record, hrecv, eq_self_iff_true, if_true]

/-- A download of an existing file: `download_core` announces name and
size, streams the chunked bytes, and closes with the completion
response. -/
theorem download_core_serves (sys : Sys) (base : String) (rec : FileRecord)
    (ev0 : List Event) (data : List Nat)
    (hchk : strStartsWith (abspath (pathJoin base (basename rec.file_name)))
      (abspath base) = true)
    (hfs : fsLookup sys.fs (abspath (pathJoin base (basename rec.file_name))) =
      some data) :
    download_core sys base rec ev0 =
      ([.resp (DOWNLOAD_READY ++ SEP ++ rec.file_name ++ SEP ++
          toString data.length)] ++
        (sendLoop bufferSize data).map .bytes ++ [.resp DOWNLOAD_COMPLETE],
       ev0 ++ [.fsRead (abspath (pathJoin base (basename rec.file_name)))]) := by
  unfold download_core
  simp only [hchk, Bool.not_true, Bool.false_eq_true, if_false, hfs]

/-- Finding in a list extended with a matching record always
succeeds, and whatever record is found satisfies the predicate. -/
theorem find?_concat_prop {α : Type} (p : α → Bool) (l : List α) (a : α)
    (ha : p a = true) :
    ∃ r, (l ++ [a]).find? p = some r ∧ p r = true := by
  induction l with
  | nil => exact ⟨a, by simp [ha], ha⟩
  | cons x xs ih =>
    by_cases hx : p x = true
    · exact ⟨x, by simp [List.find?_cons, hx], hx⟩
    · obtain ⟨r, hr1, hr2⟩ := ih
      refine ⟨r, ?_, hr2⟩
      rw [List.cons_append, List.find?_cons]
      simp only [hx, Bool.false_eq_true, if_false]
      exact hr1

/-- Serving a stored file yields its bytes and the completion
response. -/
theorem download_serves_bytes (sys : Sys) (base : String) (rec : FileRecord)
    (ev0 : List Event) (data : List Nat)
    (hchk : strStartsWith (abspath (pathJoin base (basename rec.file_name)))
      (abspath base) = true)
    (hfs : fsLookup sys.fs (abspath (pathJoin base (basename rec.file_name))) =
      some data) :
    sentBytes (download_core sys base rec ev0).1 = data ∧
    Out.resp DOWNLOAD_COMPLETE ∈ (download_core sys base rec ev0).1 := by
  rw [download_core_serves sys base rec ev0 data hchk hfs]
  constructor
  · rw [sentBytes_chunks]
    exact sendLoop_flatten bufferSize data (by decide)
  · simp

/-- C4.  Upload-then-download round trip, for each of the three tiers:
uploading any byte sequence of length N (the declared size parsing to
exactly N, the network delivering exactly those bytes) acknowledges
`READY_FOR_DATA` then `UPLOAD_SUCCESS`, and an immediate download of
the same file name with sufficient permission (the owner for the
private tier, anyone for the public tier, the recipient for the shared
tier) streams back exactly the original N bytes, byte for byte,
followed by `DOWNLOAD_COMPLETE`.  The filename hypotheses say the name
is a plain base name whose resolved path passes the containment
check — any name the upload accepts. -/
theorem c4_roundtrip :
    (∀ (sys : Sys) (conn : Conn) (stream : List (List Nat)) (data : List Nat)
       (name sizeStr u : String) (uid : Nat),
      conn.username = some u → conn.userId = some uid →
      pyInt sizeStr = some (data.length : Int) →
      stream.flatten = data → (∀ c ∈ stream, c ≠ []) →
      basename name = name →
      strStartsWith (abspath (pathJoin (pathJoin uploadDir u) name))
        (abspath (pathJoin uploadDir u)) = true →
      (handle_upload_file sys conn stream name sizeStr none true false).outs =
        [.resp READY_FOR_DATA, .resp UPLOAD_SUCCESS] ∧
      sentBytes (handle_download_file
        (handle_upload_file sys conn stream name sizeStr none true false).sys
        conn name true false).1 = data ∧
      Out.resp DOWNLOAD_COMPLETE ∈ (handle_download_file
        (handle_upload_file sys conn stream name sizeStr none true false).sys
        conn name true false).1) ∧
    (∀ (sys : Sys) (conn conn2 : Conn) (stream : List (List Nat))
       (data : List Nat) (name sizeStr : String) (uid : Nat),
      conn.userId = some uid →
      pyInt sizeStr = some (data.length : Int) →
      stream.flatten = data → (∀ c ∈ stream, c ≠ []) →
      basename name = name →
      strStartsWith (abspath (pathJoin publicFilesDir name))
        (abspath publicFilesDir) = true →
      (handle_upload_file sys conn stream name sizeStr none false true).outs =
        [.resp READY_FOR_DATA, .resp UPLOAD_SUCCESS] ∧
      sentBytes (handle_download_file
        (handle_upload_file sys conn stream name sizeStr none false true).sys
        conn2 name false true).1 = data ∧
      Out.resp DOWNLOAD_COMPLETE ∈ (handle_download_file
        (handle_upload_file sys conn stream name sizeStr none false true).sys
        conn2 name false true).1) ∧
    (∀ (sys : Sys) (conn conn2 : Conn) (stream : List (List Nat))
       (data : List Nat) (name sizeStr ru : String) (urec : UserRecord)
       (uid : Nat),
      conn.userId = some uid →
      get_user_by_username sys ru = some urec →
      conn2.username = some ru → conn2.userId = some urec.id →
      pyInt sizeStr = some (data.length : Int) →
      stream.flatten = data → (∀ c ∈ stream, c ≠ []) →
      basename name = name →
      strStartsWith (abspath (pathJoin (pathJoin sharedUploadsDir ru) name))
        (abspath (pathJoin sharedUploadsDir ru)) = true →
      (handle_upload_file sys conn stream name sizeStr (some ru) false
        false).outs = [.resp READY_FOR_DATA, .resp UPLOAD_SUCCESS] ∧
      sentBytes (handle_download_file
        (handle_upload_file sys conn stream name sizeStr (some ru) false
          false).sys conn2 name false false).1 = data ∧
      Out.resp DOWNLOAD_COMPLETE ∈ (handle_download_file
        (handle_upload_file sys conn stream name sizeStr (some ru) false
          false).sys conn2 name false false).1) := by
  refine ⟨?_, ?_, ?_⟩
  · intro sys conn stream data name sizeStr u uid hu huid hsz hflat hcne hname hchk
    have hup : handle_upload_file sys conn stream name sizeStr none true false =
        upload_core sys stream (pathJoin uploadDir u) name
          ((data.length : Nat) : Int) (some uid) false none [] := by
      simp [handle_upload_file, hsz, hu, hname, huid]
    rw [hup, upload_core_success sys stream data (pathJoin uploadDir u) name uid
      false none [] hflat hcne hchk]
    refine ⟨rfl, ?_⟩
    obtain ⟨r, hr, hrp⟩ := find?_concat_prop
      (fun r => r.file_name == name && r.owner_id == uid && !r.is_public &&
        r.recipient_id == none)
      sys.files ⟨sys.nextFileId, uid, name, (data.length : Int), false, none⟩
      (by simp)
    have hrname : r.file_name = name := by
      simp only [Bool.and_eq_true, beq_iff_eq] at hrp
      exact hrp.1.1.1
    have hdl : handle_download_file
        (⟨{ sys with
            files := sys.files ++
              [⟨sys.nextFileId, uid, name, (data.length : Int), false, none⟩],
            nextFileId := sys.nextFileId + 1,
            fs := fsStore sys.fs (abspath (pathJoin (pathJoin uploadDir u) name))
              data },
          [Out.resp READY_FOR_DATA, Out.resp UPLOAD_SUCCESS],
          [Event.dbWrite "add_file_record",
           Event.fsWrite (abspath (pathJoin (pathJoin uploadDir u) name))],
          (recvLoop bufferSize stream ((data.length : Int)).toNat).2⟩ :
            HandlerResult).sys conn name true false =
        download_core (⟨{ sys with
            files := sys.files ++
              [⟨sys.nextFileId, uid, name, (data.length : Int), false, none⟩],
            nextFileId := sys.nextFileId + 1,
            fs := fsStore sys.fs (abspath (pathJoin (pathJoin uploadDir u) name))
              data },
          [Out.resp READY_FOR_DATA, Out.resp UPLOAD_SUCCESS],
          [Event.dbWrite "add_file_record",
           Event.fsWrite (abspath (pathJoin (pathJoin uploadDir u) name))],
          (recvLoop bufferSize stream ((data.length : Int)).toNat).2⟩ :
            HandlerResult).sys (pathJoin uploadDir u) r
          [.dbRead "get_private_file_record"] := by
      simp only [handle_upload_file]
      simp [handle_download_file, get_private_file_record, hname, huid, hu, hr]
    rw [hdl]
    exact download_serves_bytes _ _ r _ data
      (by rw [hrname, hname]; exact hchk)
      (by rw [hrname, hname]; exact fsLookup_fsStore _ _ _)
  · intro sys conn conn2 stream data name sizeStr uid huid hsz hflat hcne hname hchk
    have hup : handle_upload_file sys conn stream name sizeStr none false true =
        upload_core sys stream publicFilesDir name
          ((data.length : Nat) : Int) (some uid) true none [] := by
      simp [handle_upload_file, hsz, hname, huid]
    rw [hup, upload_core_success sys stream data publicFilesDir name uid
      true none [] hflat hcne hchk]
    refine ⟨rfl, ?_⟩
    obtain ⟨r, hr, hrp⟩ := find?_concat_prop
      (fun r => r.file_name == name && r.is_public && r.recipient_id == none)
      sys.files ⟨sys.nextFileId, uid, name, (data.length : Int), true, none⟩
      (by simp)
    have hrname : r.file_name = name := by
      simp only [Bool.and_eq_true, beq_iff_eq] at hrp
      exact hrp.1.1
    have hdl : handle_download_file
        ({ sys with
            files := sys.files ++
              [⟨sys.nextFileId, uid, name, (data.length : Int), true, none⟩],
            nextFileId := sys.nextFileId + 1,
            fs := fsStore sys.fs (abspath (pathJoin publicFilesDir name)) data })
          conn2 name false true =
        download_core ({ sys with
            files := sys.files ++
              [⟨sys.nextFileId, uid, name, (data.length : Int), true, none⟩],
            nextFileId := sys.nextFileId + 1,
            fs := fsStore sys.fs (abspath (pathJoin publicFilesDir name)) data })
          publicFilesDir r [.dbRead "get_public_file_record"] := by
      simp [handle_download_file, get_public_file_record, hname, hr]
    rw [hdl]
    exact download_serves_bytes _ _ r _ data
      (by rw [hrname, hname]; exact hchk)
      (by rw [hrname, hname]; exact fsLookup_fsStore _ _ _)
  · intro sys conn conn2 stream data name sizeStr ru urec uid huid hur hu2 huid2
      hsz hflat hcne hname hchk
    have hup : handle_upload_file sys conn stream name sizeStr (some ru) false
        false =
        upload_core sys stream (pathJoin sharedUploadsDir ru) name
          ((data.length : Nat) : Int) (some uid) false (some urec.id)
          [.dbRead "get_user_by_username"] := by
      simp [handle_upload_file, hsz, hname, huid, hur]
    rw [hup, upload_core_success sys stream data (pathJoin sharedUploadsDir ru)
      name uid false (some urec.id) [.dbRead "get_user_by_username"] hflat hcne
      hchk]
    refine ⟨rfl, ?_⟩
    obtain ⟨r, hr, hrp⟩ := find?_concat_prop
      (fun r => r.file_name == name && r.recipient_id == some urec.id &&
        !r.is_public)
      sys.files
      ⟨sys.nextFileId, uid, name, (data.length : Int), false, some urec.id⟩
      (by simp)
    have hrname : r.file_name = name := by
      simp only [Bool.and_eq_true, beq_iff_eq] at hrp
      exact hrp.1.1
    have hdl : handle_download_file
        ({ sys with
            files := sys.files ++
              [⟨sys.nextFileId, uid, name, (data.length : Int), false,
                some urec.id⟩],
            nextFileId := sys.nextFileId + 1,
            fs := fsStore sys.fs
              (abspath (pathJoin (pathJoin sharedUploadsDir ru) name)) data })
          conn2 name false false =
        download_core ({ sys with
            files := sys.files ++
              [⟨sys.nextFileId, uid, name, (data.length : Int), false,
                some urec.id⟩],
            nextFileId := sys.nextFileId + 1,
            fs := fsStore sys.fs
              (abspath (pathJoin (pathJoin sharedUploadsDir ru) name)) data })
          (pathJoin sharedUploadsDir ru) r
          [.dbRead "get_file_record_in_shared_folder"] := by
      simp [handle_download_file, get_file_record_in_shared_folder, hname, hu2,
        huid2, hr]
    rw [hdl]
    exact download_serves_bytes _ _ r _ data
      (by rw [hrname, hname]; exact hchk)
      (by rw [hrname, hname]; exact fsLookup_fsStore _ _ _)

/-- C4, witness: alice uploads the two bytes `[7, 8]` privately as
`f.txt` and downloads them back unchanged. -/
theorem c4_roundtrip_witness :
    (handle_upload_file sysA connAlice [[7, 8]] "f.txt" "2" none true
      false).outs = [.resp READY_FOR_DATA, .resp UPLOAD_SUCCESS] ∧
    sentBytes (handle_download_file
      (handle_upload_file sysA connAlice [[7, 8]] "f.txt" "2" none true
        false).sys connAlice "f.txt" true false).1 = [7, 8] ∧
    Out.resp DOWNLOAD_COMPLETE ∈ (handle_download_file
      (handle_upload_file sysA connAlice [[7, 8]] "f.txt" "2" none true
        false).sys connAlice "f.txt" true false).1 :=
  c4_roundtrip.1 sysA connAlice [[7, 8]] [7, 8] "f.txt" "2" "alice" 1 rfl rfl
    (by decide) (by decide) (by decide) (by decide) (by decide)

/-! ## C5: tier exclusivity of file records -/

/-- Well-formedness of the files table: ids below the auto-increment
counter, pairwise distinct ids, and the tier invariant — no record is
simultaneously public and addressed to a recipient. -/
def filesWf (files : List FileRecord) (next : Nat) : Prop :=
  (∀ r ∈ files, r.file_id < next) ∧
  files.Pairwise (fun a b => a.file_id ≠ b.file_id) ∧
  (∀ r ∈ files, ¬(r.is_public = true ∧ r.recipient_id ≠ none))

def sysWf (sys : Sys) : Prop := filesWf sys.files sys.nextFileId

theorem eq_of_mem_pairwise_ids {l : List FileRecord}
    (hp : l.Pairwise (fun a b => a.file_id ≠ b.file_id)) {a b : FileRecord}
    (ha : a ∈ l) (hb : b ∈ l) (hid : a.file_id = b.file_id) : a = b := by
  induction l with
  | nil => cases ha
  | cons x xs ih =>
    rcases List.pairwise_cons.mp hp with ⟨hx, hxs⟩
    rcases List.mem_cons.mp ha with rfl | ha2
    · rcases List.mem_cons.mp hb with rfl | hb2
      · rfl
      · exact absurd hid (hx b hb2)
    · rcases List.mem_cons.mp hb with rfl | hb2
      · exact absurd hid.symm (hx a ha2)
      · exact ih hxs ha2 hb2

theorem sysWf_add (sys : Sys) (owner : Option Nat) (name : String) (size : Int)
    (pub : Bool) (recip : Option Nat) (h : ¬(pub = true ∧ recip ≠ none))
    (hw : sysWf sys) : sysWf (add_file_record sys owner name size pub recip).2 := by
  cases owner with
  | none => exact hw
  | some oid =>
    obtain ⟨hb, hp, hi⟩ := hw
    simp only [add_file_record]
    refine ⟨?_, ?_, ?_⟩
    · intro r hr
      rcases List.mem_append.mp hr with hr2 | hr2
      · exact Nat.lt_succ_of_lt (hb r hr2)
      · rcases List.mem_singleton.mp hr2 with rfl
        exact Nat.lt_succ_self _
    · rw [List.pairwise_append]
      refine ⟨hp, List.pairwise_singleton _ _, ?_⟩
      intro a ha b hbm
      rcases List.mem_singleton.mp hbm with rfl
      exact Nat.ne_of_lt (hb a ha)
    · intro r hr
      rcases List.mem_append.mp hr with hr2 | hr2
      · exact hi r hr2
      · rcases List.mem_singleton.mp hr2 with rfl
        exact h

theorem sysWf_upload_core (sys : Sys) (stream : List (List Nat))
    (base safe : String) (size : Int) (owner : Option Nat) (pub : Bool)
    (recip : Option Nat) (ev0 : List Event)
    (h : ¬(pub = true ∧ recip ≠ none)) (hw : sysWf sys) :
    sysWf (upload_core sys stream base safe size owner pub recip ev0).sys := by
  have hadd := sysWf_add sys owner safe size pub recip h hw
  unfold upload_core
  by_cases hchk : strStartsWith (abspath (pathJoin base safe)) (abspath base) = true
  · cases hA : add_file_record sys owner safe size pub recip with
    | mk ok sys2 =>
      rw [hA] at hadd
      cases ok with
      | false => simpa [hchk] using hadd
      | true =>
        by_cases hlen :
            (((recvLoop bufferSize stream size.toNat).1.length : Int) = size) <;>
          simpa [hchk, hlen, sysWf, filesWf] using hadd
  · rw [Bool.not_eq_true] at hchk
    simpa [hchk] using hw

theorem sysWf_handle_upload (sys : Sys) (conn : Conn)
    (stream : List (List Nat)) (name sizeStr : String) (recip : Option String)
    (priv pub : Bool) (hw : sysWf sys) :
    sysWf (handle_upload_file sys conn stream name sizeStr recip priv pub).sys := by
  cases hpi : pyInt sizeStr with
  | none => simpa [handle_upload_file, hpi] using hw
  | some size =>
    cases priv with
    | true =>
      cases hu : conn.username with
      | none => simpa [handle_upload_file, hpi, hu] using hw
      | some u =>
        have := sysWf_upload_core sys stream (pathJoin uploadDir u)
          (basename name) size conn.userId false none [] (by simp) hw
        simpa [handle_upload_file, hpi, hu] using this
    | false =>
      cases pub with
      | true =>
        have := sysWf_upload_core sys stream publicFilesDir (basename name)
          size conn.userId true none [] (by simp) hw
        simpa [handle_upload_file, hpi] using this
      | false =>
        cases hr : recip with
        | none => simpa [handle_upload_file, hpi, hr] using hw
        | some ru =>
          cases hur : get_user_by_username sys ru with
          | none => simpa [handle_upload_file, hpi, hr, hur] using hw
          | some urec =>
            have := sysWf_upload_core sys stream (pathJoin sharedUploadsDir ru)
              (basename name) size conn.userId false (some urec.id)
              [.dbRead "get_user_by_username"] (by simp) hw
            simpa [handle_upload_file, hpi, hr, hur] using this

theorem sysWf_update_vis (sys : Sys) (idv : Nat) (hw : sysWf sys)
    (hrec : ∃ rec ∈ sys.files, rec.file_id = idv ∧ rec.recipient_id = none) :
    sysWf (update_file_visibility sys idv true).2 := by
  obtain ⟨hb, hp, hi⟩ := hw
  obtain ⟨rec, hrm, hrid, hrn⟩ := hrec
  simp only [update_file_visibility]
  refine ⟨?_, ?_, ?_⟩
  · intro r hr
    rcases List.mem_map.mp hr with ⟨r0, hr0, rfl⟩
    by_cases hid : (r0.file_id == idv) = true <;> simp [hid] <;>
      exact hb r0 hr0
  · have : ∀ r0 : FileRecord,
        (if r0.file_id == idv then { r0 with is_public := true } else r0).file_id =
          r0.file_id := by
      intro r0
      by_cases hid : (r0.file_id == idv) = true <;> simp [hid]
    rw [List.pairwise_map]
    refine hp.imp_of_mem ?_
    intro a b _ _ hab
    rw [this a, this b]
    exact hab
  · intro r hr
    rcases List.mem_map.mp hr with ⟨r0, hr0, rfl⟩
    by_cases hid : (r0.file_id == idv) = true
    · have hr0id : r0.file_id = idv := by simpa using hid
      have : r0 = rec := eq_of_mem_pairwise_ids hp hr0 hrm (by rw [hr0id, hrid])
      subst this
      simp [hid, hrn]
    · simp only [hid, if_false]
      exact hi r0 hr0

theorem sysWf_make_public_user (sys : Sys) (conn : Conn) (name : String)
    (hw : sysWf sys) : sysWf (make_public_user sys conn name).1 := by
  cases hrec : get_private_file_record sys (basename name) conn.userId with
  | none => simpa [make_public_user, hrec] using hw
  | some rec =>
    cases hu : conn.username with
    | none => simpa [make_public_user, hrec, hu] using hw
    | some u =>
      cases hfs : fsLookup sys.fs
          (abspath (pathJoin (pathJoin uploadDir u) (basename name))) with
      | none => simpa [make_public_user, hrec, hu, hfs] using hw
      | some bytes =>
        have hmem : rec ∈ sys.files ∧ rec.recipient_id = none := by
          unfold get_private_file_record at hrec
          revert hrec
          cases conn.userId with
          | none => intro hrec; cases hrec
          | some uid =>
            intro hrec
            have h1 := List.mem_of_find?_eq_some hrec
            have h2 := List.find?_some hrec
            simp only [Bool.and_eq_true, beq_iff_eq] at h2
            exact ⟨h1, h2.2⟩
        have key := sysWf_update_vis { sys with fs := fsStore sys.fs (abspath (pathJoin publicFilesDir (basename name))) bytes } rec.file_id (by exact hw) ⟨rec, hmem.1, rfl, hmem.2⟩
        simpa [make_public_user, hrec, hu, hfs, update_file_visibility]
          using key

theorem sysWf_make_shared_user (sys : Sys) (conn : Conn)
    (name ru : String) (hw : sysWf sys) :
    sysWf (make_shared_user sys conn name ru).1 := by
  cases hrec : get_private_file_record sys (basename name) conn.userId with
  | none => simpa [make_shared_user, hrec] using hw
  | some rec =>
    cases hur : get_user_by_username sys ru with
    | none => simpa [make_shared_user, hrec, hur] using hw
    | some recp =>
      cases hu : conn.username with
      | none => simpa [make_shared_user, hrec, hur, hu] using hw
      | some u =>
        cases hfs : fsLookup sys.fs
            (abspath (pathJoin (pathJoin uploadDir u) (basename name))) with
        | none => simpa [make_shared_user, hrec, hur, hu, hfs] using hw
        | some bytes =>
          have key := sysWf_add { sys with fs := fsStore sys.fs (abspath (pathJoin (pathJoin sharedUploadsDir ru) (basename name))) bytes } conn.userId (basename name) rec.file_size false (some recp.id) (by simp) (by exact hw)
          simpa [make_shared_user, hrec, hur, hu, hfs] using key

theorem sysWf_delete (sys : Sys) (fileIdStr : String) (userId : Nat)
    (role : String) (hw : sysWf sys) :
    sysWf (delete_file sys fileIdStr userId role).2 := by
  obtain ⟨hb, hp, hi⟩ := hw
  have hsub : ∀ (p : FileRecord → Bool),
      filesWf (sys.files.filter p) sys.nextFileId := by
    intro p
    refine ⟨fun r hr => hb r (List.mem_of_mem_filter hr),
      hp.sublist (List.filter_sublist _),
      fun r hr => hi r (List.mem_of_mem_filter hr)⟩
  unfold delete_file
  cases hg : get_file_record_by_id sys (mysqlNum fileIdStr) with
  | none => exact ⟨hb, hp, hi⟩
  | some rec =>
    by_cases hrole : (role == "admin") = true
    · by_cases hpub : (!rec.is_public) = true
      · simp only [hrole, hpub, if_true]
        exact ⟨hb, hp, hi⟩
      · simp only [hrole, hpub, Bool.false_eq_true, if_false, if_true]
        by_cases hone :
            ((sys.files.filter (fun r => r.file_id == rec.file_id)).length == 1) =
              true <;>
          simp only [hone, if_true, if_false] <;> exact hsub _
    · simp only [hrole, Bool.false_eq_true, if_false]
      by_cases hone :
          ((sys.files.filter (fun r =>
            r.file_id == rec.file_id && r.owner_id == userId)).length == 1) =
            true <;>
        simp only [hone, if_true, if_false] <;> exact hsub _

theorem sysWf_admin_delete (sys : Sys) (sid : Option String) (fidStr : String)
    (hw : sysWf sys) :
    sysWf (admin_delete_public_file sys sid fidStr).1 := by
  cases hg : get_session_data sys sid with
  | none => simpa [admin_delete_public_file, hg] using hw
  | some sd =>
    by_cases hrole : sd.role = "admin"
    case neg => simpa [admin_delete_public_file, hg, hrole] using hw
    case pos =>
      have hdel := sysWf_delete sys fidStr sd.userId sd.role hw
      cases hD : delete_file sys fidStr sd.userId sd.role with
      | mk res sys2 =>
        have hD2 : delete_file sys fidStr sd.userId "admin" = (res, sys2) := by
          rw [← hrole]
          exact hD
        cases res with
        | none =>
          simpa [admin_delete_public_file, hg, hrole, hD2, sysWf, filesWf]
            using hdel
        | some triple =>
          obtain ⟨fname, fowner, fpub⟩ := triple
          by_cases hfp : fname ≠ "" ∧ fpub = true
          · cases hL : fsLookup sys2.fs
                (abspath (pathJoin publicFilesDir fname)) with
            | some b =>
              simpa [admin_delete_public_file, hg, hrole, hD2, hfp, hL, sysWf,
                filesWf] using hdel
            | none =>
              simpa [admin_delete_public_file, hg, hrole, hD2, hfp, hL, sysWf,
                filesWf] using hdel
          · simpa [admin_delete_public_file, hg, hrole, hD2, hfp, sysWf,
              filesWf] using hdel

/-- C5, counterexample.  Alice uploads `f.txt` *for sharing* with
recipient alice (a single record: owner 1, recipient 1, not public),
then the admin issues `MAKE_PUBLIC_ADMIN` for alice's `f.txt`.
`make_public_admin` copies the bytes and sets `is_public = TRUE`
without clearing `recipient_id`: the resulting store holds a record
that is public *and* addressed to a recipient — two tiers at once. -/
theorem c5_counterexample :
    (dispatch (dispatch sysA connAlice [[7]]
        [UPLOAD_FOR_SHARING_CMD, "alice", "s1", "f.txt", "1"]).sys
      connBoss [] [MAKE_PUBLIC_ADMIN_CMD, "s2", "alice", "f.txt"]).sys.files =
      [⟨1, 1, "f.txt", 1, true, some 1⟩] ∧
    ∃ r ∈ (dispatch (dispatch sysA connAlice [[7]]
        [UPLOAD_FOR_SHARING_CMD, "alice", "s1", "f.txt", "1"]).sys
      connBoss [] [MAKE_PUBLIC_ADMIN_CMD, "s2", "alice", "f.txt"]).sys.files,
      r.is_public = true ∧ r.recipient_id ≠ none := by
  exact ⟨by decide, by decide⟩

theorem sysWf_register (sys : Sys) (u p : String) (hw : sysWf sys) :
    sysWf (auth_register_user sys u p).1 := by
  unfold auth_register_user
  by_cases he : u = "" ∨ p = ""
  · simp only [he, if_true]
    exact hw
  · simp only [he, if_false]
    cases hg : get_user_by_username sys u with
    | some _ => exact hw
    | none => exact hw

theorem sysWf_login (sys : Sys) (u p : String) (hw : sysWf sys) :
    sysWf (auth_login_user sys u p).1 := by
  unfold auth_login_user
  cases hg : get_user_by_username sys u with
  | none => exact hw
  | some usr =>
    by_cases hc : credCheck usr.cred p = true
    · simp only [hc, if_true]
      exact hw
    · simp only [hc, if_false]
      exact hw

theorem sysWf_logout (sys : Sys) (sid : Option String) (hw : sysWf sys) :
    sysWf (auth_logout_user sys sid).1 := by
  unfold auth_logout_user
  cases sid with
  | none => exact hw
  | some s =>
    by_cases hv : is_valid_session sys s = true
    · simp only [hv, if_true]
      exact hw
    · simp only [hv, if_false]
      exact hw

set_option maxHeartbeats 1600000

/-- C5, amended.  The tier invariant — no reachable record is both
public and addressed to a recipient — is preserved by every command
*except* `MAKE_PUBLIC_ADMIN`: uploads create records in exactly one
tier, `MAKE_PUBLIC_USER` promotes only records whose recipient is
`NULL` (the private-record query guarantees it), `MAKE_SHARED_USER`
adds a non-public recipient record, deletion only removes records, and
the session commands leave the files table alone.  `MAKE_PUBLIC_ADMIN`
breaks the invariant by setting `is_public` without clearing the
recipient (see the counterexample). -/
theorem sysWf_ite (c : Prop) [Decidable c] (A B : StepResult)
    (hA : sysWf A.sys) (hB : sysWf B.sys) :
    sysWf (if c then A else B).sys := by
  split_ifs <;> assumption

theorem c5_amended (sys : Sys) (conn : Conn) (stream : List (List Nat))
    (parts : List String) (hw : sysWf sys)
    (hcmd : parts.getD 0 "" ≠ MAKE_PUBLIC_ADMIN_CMD) :
    sysWf (dispatch sys conn stream parts).sys := by
  simp only [dispatch, hcmd, if_false]
  repeat'
    first
    | exact hw
    | exact sysWf_register _ _ _ hw
    | exact sysWf_login _ _ _ hw
    | exact sysWf_logout _ _ hw
    | exact sysWf_handle_upload _ _ _ _ _ _ _ _ hw
    | exact sysWf_make_public_user _ _ _ hw
    | exact sysWf_make_shared_user _ _ _ _ hw
    | exact sysWf_admin_delete _ _ _ hw
    | apply sysWf_ite

set_option maxHeartbeats 200000

/-- C5, amended, witness: the shared upload of the counterexample's
first step preserves the invariant. -/
theorem c5_amended_witness :
    sysWf (dispatch sysA connAlice [[7]]
      [UPLOAD_FOR_SHARING_CMD, "alice", "s1", "f.txt", "1"]).sys :=
  c5_amended sysA connAlice [[7]]
    [UPLOAD_FOR_SHARING_CMD, "alice", "s1", "f.txt", "1"]
    (by refine ⟨by decide, ?_, by decide⟩; decide) (by decide)

/-! ## C6: LIST commands and their filters -/

/-- What `LIST_SHARED` actually returns: the *public* files with a
nonzero owner id, formatted `owner/filename` — independent of the
requesting user. -/
def sharedListing (sys : Sys) : List String :=
  (sys.files.filter (·.is_public)).filterMap (fun r =>
    if r.owner_id ≠ 0 then some (ownerNameOf sys r ++ "/" ++ r.file_name)
    else none)

/-- What `LIST_PRIVATE` returns for a connection bound to user `uid`:
the names of the records owned by `uid` that are not public (this
includes records the user shared with someone, since the query filters
only on owner and `is_public`). -/
def privateListing (sys : Sys) (uid : Nat) : List String :=
  (sys.files.filter (fun r => r.owner_id == uid && !r.is_public)).map
    (·.file_name)

/-- What `LIST_PUBLIC` returns: `id,name` pairs of the public files. -/
def publicListing (sys : Sys) : List String :=
  (sys.files.filter (·.is_public)).map
    (fun r => toString r.file_id ++ "," ++ r.file_name)

/-- A server state holding one file shared with alice (recipient id 1,
not public), owned by the admin. -/
def sysC6 : Sys := { sysA with files := [⟨1, 2, "g.txt", 2, false, some 1⟩] }

/-- C6, counterexample.  The store holds exactly one record whose
recipient is the requesting user alice (valid session `s1`), yet
`LIST_SHARED` answers `NO_FILES_SHARED`: the command queries the
*public* files, not the files shared with the requester, so it does
not return the files whose recipient is the requesting user. -/
theorem c6_counterexample :
    sysC6.files = [⟨1, 2, "g.txt", 2, false, some 1⟩] ∧
    connAlice.userId = some 1 ∧
    is_valid_session sysC6 "s1" = true ∧
    (dispatch sysC6 connAlice [] [LIST_SHARED_CMD, "s1"]).outs =
      [.resp NO_FILES_SHARED] := by
  exact ⟨by decide, by decide, by decide, by decide⟩

theorem get_files_pub (sys : Sys) :
    get_files sys none (some true) = sys.files.filter (·.is_public) := by
  unfold get_files
  exact List.filter_congr (fun r _ => by cases r.is_public <;> rfl)

theorem get_files_priv (sys : Sys) (uid : Nat) :
    get_files sys (some uid) (some false) =
      sys.files.filter (fun r => r.owner_id == uid && !r.is_public) := by
  unfold get_files
  refine List.filter_congr (fun r _ => ?_)
  cases hb : r.is_public <;> cases ho : r.owner_id == uid <;> simp [hb, ho]

theorem list_shared_chars (sys : Sys) :
    list_shared_files sys =
      ([if sharedListing sys = [] then Out.resp NO_FILES_SHARED
        else Out.resp (SHARED_LIST ++ SEP ++
          String.intercalate SEP (sharedListing sys))],
       [Event.dbRead "get_files"]) := by
  have hfold : (sys.files.filter (·.is_public)).filterMap (fun r =>
      if r.owner_id ≠ 0 then some (ownerNameOf sys r ++ "/" ++ r.file_name)
      else none) = sharedListing sys := rfl
  simp only [list_shared_files, get_files_pub, hfold]
  by_cases hfm : sharedListing sys = []
  · rw [if_pos hfm]
    by_cases hall : sys.files.filter (·.is_public) = []
    · rw [if_pos (show (sys.files.filter (·.is_public)).isEmpty = true by
        rw [hall]; rfl)]
    · rw [if_neg (by simp [List.isEmpty_iff, hall]),
        if_pos (by simp [List.isEmpty_iff, hfm])]
  · have hall : sys.files.filter (·.is_public) ≠ [] := by
      intro h
      exact hfm (by unfold sharedListing; rw [h]; rfl)
    rw [if_neg hfm, if_neg (by simp [List.isEmpty_iff, hall]),
      if_neg (by simp [List.isEmpty_iff, hfm])]

theorem handle_list_private_chars (sys : Sys) (conn : Conn) (uid : Nat)
    (huid : conn.userId = some uid) :
    handle_list_private sys conn =
      ([if privateListing sys uid = [] then Out.resp NO_FILES_PRIVATE
        else Out.resp (PRIVATE_LIST ++ SEP ++
          String.intercalate SEP (privateListing sys uid))],
       [Event.dbRead "get_files"]) := by
  have hfold : (sys.files.filter
      (fun r => r.owner_id == uid && !r.is_public)).map (·.file_name) =
      privateListing sys uid := rfl
  simp only [handle_list_private, huid, get_files_priv, hfold]
  by_cases hall :
      sys.files.filter (fun r => r.owner_id == uid && !r.is_public) = []
  · have hp : privateListing sys uid = [] := by
      unfold privateListing; rw [hall]; rfl
    rw [if_pos hp, if_pos (show (sys.files.filter
      (fun r => r.owner_id == uid && !r.is_public)).isEmpty = true by
        rw [hall]; rfl)]
  · have hp : privateListing sys uid ≠ [] := by
      intro h
      apply hall
      unfold privateListing at h
      exact (List.map_eq_nil_iff).mp h
    rw [if_neg hp, if_neg (by simp [List.isEmpty_iff, hall])]

theorem handle_list_public_chars (sys : Sys) :
    handle_list_public_files sys =
      ([if publicListing sys = [] then Out.resp NO_FILES_PUBLIC
        else Out.resp (LIST_SUCCESS ++ SEP ++
          String.intercalate SEP (publicListing sys))],
       [Event.dbRead "get_public_files"]) := by
  have hfold : (get_public_files sys).map
      (fun f => toString f.file_id ++ "," ++ f.file_name) =
      publicListing sys := rfl
  simp only [handle_list_public_files, hfold]
  by_cases hall : sys.files.filter (·.is_public) = []
  · have hp : publicListing sys = [] := by
      unfold publicListing; rw [hall]; rfl
    rw [if_pos hp, if_pos (show (get_public_files sys).isEmpty = true by
      unfold get_public_files; rw [hall]; rfl)]
  · have hp : publicListing sys ≠ [] := by
      intro h
      apply hall
      unfold publicListing at h
      exact (List.map_eq_nil_iff).mp h
    rw [if_neg hp,
      if_neg (by simp [List.isEmpty_iff, get_public_files, hall])]

/-- C6, amended.  Each LIST command's response is characterized by
what the code actually queries: `LIST_SHARED` returns the public files
with nonzero owner formatted `owner/filename` — the same answer for
every requester, with *no* filtering by the requester's recipient
status; `LIST_PRIVATE` returns the names of the records owned by the
requester that are not public; `LIST_PUBLIC` returns `id,name` of the
public records.  Each command answers its empty-tier response when its
listing is empty. -/
theorem c6_amended :
    (∀ (sys : Sys) (conn : Conn) (stream : List (List Nat))
       (sid : String) (rest : List String),
      is_valid_session sys sid = true →
      dispatch sys conn stream (LIST_SHARED_CMD :: sid :: rest) =
        ⟨sys, conn,
         [if sharedListing sys = [] then .resp NO_FILES_SHARED
          else .resp (SHARED_LIST ++ SEP ++
            String.intercalate SEP (sharedListing sys))],
         [.dbRead "get_files"], stream, false⟩) ∧
    (∀ (sys : Sys) (conn conn2 : Conn) (stream stream2 : List (List Nat))
       (sid sid2 : String) (rest rest2 : List String),
      is_valid_session sys sid = true →
      is_valid_session sys sid2 = true →
      (dispatch sys conn stream (LIST_SHARED_CMD :: sid :: rest)).outs =
        (dispatch sys conn2 stream2 (LIST_SHARED_CMD :: sid2 :: rest2)).outs) ∧
    (∀ (sys : Sys) (conn : Conn) (stream : List (List Nat))
       (sid : String) (rest : List String) (uid : Nat),
      conn.userId = some uid →
      is_valid_session sys sid = true →
      dispatch sys conn stream (LIST_PRIVATE_CMD :: sid :: rest) =
        ⟨sys, conn,
         [if privateListing sys uid = [] then .resp NO_FILES_PRIVATE
          else .resp (PRIVATE_LIST ++ SEP ++
            String.intercalate SEP (privateListing sys uid))],
         [.dbRead "get_files"], stream, false⟩) ∧
    (∀ (sys : Sys) (conn : Conn) (stream : List (List Nat))
       (sid : String) (rest : List String),
      is_valid_session sys sid = true →
      dispatch sys conn stream (LIST_PUBLIC_CMD :: sid :: rest) =
        ⟨sys, conn,
         [if publicListing sys = [] then .resp NO_FILES_PUBLIC
          else .resp (LIST_SUCCESS ++ SEP ++
            String.intercalate SEP (publicListing sys))],
         [.dbRead "get_public_files"], stream, false⟩) := by
  have hshared : ∀ (sys : Sys) (conn : Conn) (stream : List (List Nat))
      (sid : String) (rest : List String),
      is_valid_session sys sid = true →
      dispatch sys conn stream (LIST_SHARED_CMD :: sid :: rest) =
        ⟨sys, conn,
         [if sharedListing sys = [] then .resp NO_FILES_SHARED
          else .resp (SHARED_LIST ++ SEP ++
            String.intercalate SEP (sharedListing sys))],
         [.dbRead "get_files"], stream, false⟩ := by
    intro sys conn stream sid rest hv
    simp [dispatch, hv, list_shared_chars]
  refine ⟨hshared, ?_, ?_, ?_⟩
  · intro sys conn conn2 stream stream2 sid sid2 rest rest2 hv1 hv2
    rw [hshared sys conn stream sid rest hv1,
      hshared sys conn2 stream2 sid2 rest2 hv2]
  · intro sys conn stream sid rest uid huid hv
    simp [dispatch, hv, handle_list_private_chars sys conn uid huid]
  · intro sys conn stream sid rest hv
    simp [dispatch, hv, handle_list_public_chars]

/-- C6, amended, witness: in the counterexample state, the shared
listing is empty (the only record is not public), the private listing
of the admin (user id 2) holds `g.txt`, and both characterizations
instantiate. -/
theorem c6_amended_witness :
    (is_valid_session sysC6 "s1" = true ∧
     dispatch sysC6 connAlice [] [LIST_SHARED_CMD, "s1"] =
      ⟨sysC6, connAlice, [.resp NO_FILES_SHARED], [.dbRead "get_files"],
       [], false⟩) ∧
    (connBoss.userId = some 2 ∧ is_valid_session sysC6 "s2" = true ∧
     dispatch sysC6 connBoss [] [LIST_PRIVATE_CMD, "s2"] =
      ⟨sysC6, connBoss,
       [.resp (PRIVATE_LIST ++ SEP ++ "g.txt")], [.dbRead "get_files"],
       [], false⟩) := by
  constructor
  · refine ⟨by decide, ?_⟩
    have h := c6_amended.1 sysC6 connAlice [] "s1" [] (by decide)
    rw [h]
    decide
  · refine ⟨by decide, by decide, ?_⟩
    have h := c6_amended.2.2.1 sysC6 connBoss [] "s2" [] 2 rfl (by decide)
    rw [h]
    decide

/-! ## C7: filesize parsing on upload -/

/-- C7, counterexample.  Alice declares a *negative* filesize `-1` on a
private upload.  `int("-1")` succeeds, so instead of the claimed
malformed-command rejection the handler inserts the metadata record
(size `-1`) and sends `READY_FOR_DATA` before looking at the size; the
receive loop then reads nothing and the upload ends in the
incomplete-upload error, with the record still in the store. -/
theorem c7_counterexample :
    pyInt "-1" = some (-1) ∧
    (dispatch sysA connAlice [[1, 2, 3]]
      [UPLOAD_PRIVATE_CMD, "s1", "g.txt", "-1"]).outs =
      [.resp READY_FOR_DATA,
       .resp (ERROR_RESPONSE ++ SEP ++ "Incomplete file upload.")] ∧
    (dispatch sysA connAlice [[1, 2, 3]]
      [UPLOAD_PRIVATE_CMD, "s1", "g.txt", "-1"]).sys.files =
      [⟨1, 1, "g.txt", -1, false, none⟩] ∧
    (dispatch sysA connAlice [[1, 2, 3]]
      [UPLOAD_PRIVATE_CMD, "s1", "g.txt", "-1"]).stream = [[1, 2, 3]] := by
  refine ⟨by decide, by decide, by decide, by decide⟩

theorem recvLoop_zero (buffer : Nat) (stream : List (List Nat)) :
    recvLoop buffer stream 0 = ([], stream) := rfl

/-- C7, amended.  A *non-numeric* filesize raises `ValueError` in
`int()` and is answered with the invalid-command-format error — no
`READY_FOR_DATA`, no bytes consumed, no record and no file.  A
*negative* filesize parses successfully and is *not* treated as a
malformed command: the metadata record (with the negative size) is
inserted and `READY_FOR_DATA` is sent before the size is examined; the
receive loop consumes no bytes, and the upload ends with the
incomplete-upload error and no file on disk — a failed transfer after
the handshake, not a transfer of size 0 and not a command-format
rejection. -/
theorem c7_amended :
    (∀ (sys : Sys) (conn : Conn) (stream : List (List Nat))
       (fname fsz : String) (ru : Option String) (priv pub : Bool),
      pyInt fsz = none →
      handle_upload_file sys conn stream fname fsz ru priv pub =
        ⟨sys, [.resp (ERROR_RESPONSE ++ SEP ++ "Invalid command format.")],
         [], stream⟩) ∧
    (∀ (sys : Sys) (stream : List (List Nat)) (base safe : String)
       (size : Int) (owner : Nat) (pub : Bool) (recip : Option Nat)
       (ev0 : List Event),
      size < 0 →
      strStartsWith (abspath (pathJoin base safe)) (abspath base) = true →
      (upload_core sys stream base safe size (some owner) pub recip
          ev0).outs =
        [.resp READY_FOR_DATA,
         .resp (ERROR_RESPONSE ++ SEP ++ "Incomplete file upload.")] ∧
      (⟨sys.nextFileId, owner, safe, size, pub, recip⟩ : FileRecord) ∈
        (upload_core sys stream base safe size (some owner) pub recip
          ev0).sys.files ∧
      fsLookup (upload_core sys stream base safe size (some owner) pub recip
          ev0).sys.fs (abspath (pathJoin base safe)) = none ∧
      (upload_core sys stream base safe size (some owner) pub recip
          ev0).stream = stream) := by
  constructor
  · intro sys conn stream fname fsz ru priv pub h
    simp [handle_upload_file, h]
  · intro sys stream base safe size owner pub recip ev0 hneg hchk
    have h0 : size.toNat = 0 := Int.toNat_of_nonpos (le_of_lt hneg)
    have hrv : recvLoop bufferSize stream size.toNat = ([], stream) := by
      rw [h0]
      exact recvLoop_zero bufferSize stream
    have hmis : (((recvLoop bufferSize stream size.toNat).1.length : Int)) ≠
        size := by
      rw [hrv]
      simp
      omega
    unfold upload_core
    simp only [hchk, Bool.not_true, Bool.false_eq_true, if_false,
      add_file_record]
    refine ⟨by simp [hmis], by simp [hmis], ?_,
      by simp only [hmis, if_false]; rw [hrv]⟩
    simp only [hmis, if_false]
    exact fsLookup_fsErase _ _

/-- C7, amended, witness: the non-numeric size `12x` is rejected as a
command-format error on a private upload; the negative size `-3` on
base `uploads/alice` produces the handshake, the persisted record, no
file, and an unconsumed stream. -/
theorem c7_amended_witness :
    (pyInt "12x" = none ∧
     handle_upload_file sysA connAlice [[1]] "g.txt" "12x" none true false =
       ⟨sysA, [.resp (ERROR_RESPONSE ++ SEP ++ "Invalid command format.")],
        [], [[1]]⟩) ∧
    ((-3 : Int) < 0 ∧
     strStartsWith (abspath (pathJoin "uploads/alice" "g.txt"))
       (abspath "uploads/alice") = true ∧
     ((upload_core sysA [[9]] "uploads/alice" "g.txt" (-3) (some 1) false
          none []).outs =
        [.resp READY_FOR_DATA,
         .resp (ERROR_RESPONSE ++ SEP ++ "Incomplete file upload.")] ∧
      (⟨sysA.nextFileId, 1, "g.txt", -3, false, none⟩ : FileRecord) ∈
        (upload_core sysA [[9]] "uploads/alice" "g.txt" (-3) (some 1) false
          none []).sys.files ∧
      fsLookup (upload_core sysA [[9]] "uploads/alice" "g.txt" (-3) (some 1)
          false none []).sys.fs
        (abspath (pathJoin "uploads/alice" "g.txt")) = none ∧
      (upload_core sysA [[9]] "uploads/alice" "g.txt" (-3) (some 1) false
          none []).stream = [[9]])) :=
  ⟨⟨by decide,
    c7_amended.1 sysA connAlice [[1]] "g.txt" "12x" none true false
      (by decide)⟩,
   by decide, by decide,
   c7_amended.2 sysA [[9]] "uploads/alice" "g.txt" (-3) 1 false none []
     (by decide) (by decide)⟩

/-! ## C9: registration -/

/-- C9.  `register` fails — answering the failure response and leaving
the user table untouched — when the username or password is empty and
when the username already exists; on success exactly one user record is
appended and its stored credential is the salted-hash image of the
password, never the plaintext (no stored credential of the new record
is a plaintext credential). -/
theorem c9_register :
    (∀ (sys : Sys) (conn : Conn) (stream : List (List Nat))
       (u p : String) (rest : List String),
      u = "" ∨ p = "" →
      dispatch sys conn stream (REGISTER_CMD :: u :: p :: rest) =
        ⟨sys, conn,
         [.resp (REGISTER_FAILED ++ SEP ++
           "Username and password are required.")],
         [], stream, false⟩) ∧
    (∀ (sys : Sys) (conn : Conn) (stream : List (List Nat))
       (u p : String) (rest : List String) (usr : UserRecord),
      u ≠ "" → p ≠ "" → get_user_by_username sys u = some usr →
      dispatch sys conn stream (REGISTER_CMD :: u :: p :: rest) =
        ⟨sys, conn,
         [.resp (REGISTER_FAILED ++ SEP ++
           "Username already exists or other DB error.")],
         [], stream, false⟩) ∧
    (∀ (sys : Sys) (conn : Conn) (stream : List (List Nat))
       (u p : String) (rest : List String),
      u ≠ "" → p ≠ "" → get_user_by_username sys u = none →
      ∃ salt,
        (dispatch sys conn stream (REGISTER_CMD :: u :: p :: rest)).sys.users =
          sys.users ++
            [⟨sys.nextUserId, u, .hashed salt (bcryptDigest salt p),
              "user", none⟩] ∧
        (dispatch sys conn stream (REGISTER_CMD :: u :: p :: rest)).outs =
          [.resp REGISTER_SUCCESS] ∧
        ∀ q, Cred.hashed salt (bcryptDigest salt p) ≠ Cred.plain q) := by
  refine ⟨?_, ?_, ?_⟩
  · intro sys conn stream u p rest h
    simp [dispatch, auth_register_user, h]
  · intro sys conn stream u p rest usr hu hp hsome
    simp [dispatch, auth_register_user, hu, hp, hsome]
  · intro sys conn stream u p rest hu hp hnone
    refine ⟨sys.entropy, ?_, ?_, ?_⟩
    · simp [dispatch, auth_register_user, hu, hp, hnone]
    · simp [dispatch, auth_register_user, hu, hp, hnone]
    · intro q
      simp

/-- C9, witness: registering the fresh user `carol` with password `pw`
in the two-user base state succeeds, appends the salted-hash record,
and answers `REGISTER_SUCCESS`. -/
theorem c9_register_witness :
    ("carol" ≠ "" ∧ "pw" ≠ "" ∧
     get_user_by_username sysA "carol" = none) ∧
    ∃ salt,
      (dispatch sysA connAnon [] [REGISTER_CMD, "carol", "pw"]).sys.users =
        sysA.users ++
          [⟨sysA.nextUserId, "carol", .hashed salt (bcryptDigest salt "pw"),
            "user", none⟩] ∧
      (dispatch sysA connAnon [] [REGISTER_CMD, "carol", "pw"]).outs =
        [.resp REGISTER_SUCCESS] ∧
      ∀ q, Cred.hashed salt (bcryptDigest salt "pw") ≠ Cred.plain q :=
  ⟨⟨by decide, by decide, by decide⟩,
   c9_register.2.2 sysA connAnon [] "carol" "pw" []
     (by decide) (by decide) (by decide)⟩

end FTP
